import Mathlib

/-!
# collectd memcached plugin (`src/memcached.c`)

A shallow embedding of `memcached_query_daemon` and `memcached_read`.

* The operating system is a `World`: the values returned by `socket`, `getaddrinfo`,
  `connect`, `send`, `poll` and by the successive `recv` calls.
* Every system call, log message and buffer access of the END check is
  recorded, in program order, in a list of `Event`s.
* C strings are `List Char`; the NUL byte is `Char.ofNat 0`.
* The functions of libc and collectd that the file calls and the operations on
  `double` are the fields of an `Env`; `Double` is binary64 arithmetic.
-/

namespace Memcached

/-! ## Constants and the instance record -/

def MEMCACHED_DEF_HOST : String := "127.0.0.1"
def MEMCACHED_DEF_PORT : String := "11211"

def MEMCACHED_RETRY_COUNT : Nat := 100

/-- The `struct memcached_s` of the source; a `NULL` pointer is `none`. -/
structure memcached_t where
  name : Option String
  socket : Option String
  host : Option String
  port : Option String
deriving DecidableEq, Repr

/-- The NUL byte. -/
def NUL : Char := Char.ofNat 0

/-! ## The environment -/

/-- What one `recv (fd, buffer + buffer_fill, buffer_size - buffer_fill, MSG_DONTWAIT)`
does: `data bs` has `bs` ready on the socket, the call stores at most the
requested number of them and returns the number stored (`data []` is a return
value of 0, the peer has closed); `eagain` is `-1` with `errno = EAGAIN`;
`fail` is `-1` with any other `errno`. -/
inductive RecvOutcome where
  | data (bs : List Char)
  | eagain
  | fail
deriving DecidableEq, Repr

/-- One entry of the list returned by `getaddrinfo`: the value `socket ()`
returns for it and, when that is a descriptor, the value `connect ()` returns. -/
structure addr_candidate where
  sock : Int
  conn : Int
deriving DecidableEq, Repr

/-- The answers of the operating system during one call of `memcached_read`. -/
structure World where
  /-- return value of `socket (AF_UNIX, SOCK_STREAM, 0)` -/
  unix_socket : Int
  /-- result of `getaddrinfo (host, port, ...)`: `none` is a non-zero return value -/
  getaddrinfo : String → String → Option (List addr_candidate)
  /-- return value of `send (fd, "stats\r\n", 7, MSG_DONTWAIT)` -/
  send : Int
  /-- return value of `poll (&p, 1, timeout)` -/
  poll : Int
  /-- outcomes of the successive `recv` calls; after the last one `recv` returns 0 -/
  recvs : List RecvOutcome
  /-- the byte stored just before `buf` in memory (what `buffer[-1]` reads) -/
  pre : Char
  /-- the bytes that follow `buf` in memory -/
  beyond : List Char
  /-- the indeterminate initial contents of `char buf[4096]` -/
  buf0 : List Char

/-- System calls, log messages and the buffer reads of the END check. -/
inductive Event where
  | ERROR (msg : String)
  | WARNING (msg : String)
  | getaddrinfo (host port : String)
  | freeaddrinfo
  | socket (ret : Int)
  | connect (fd : Int) (ret : Int)
  | send (fd : Int) (ret : Int)
  | poll (fd : Int) (ret : Int)
  | recv (fd : Int) (offset len : Nat) (ret : Int)
  | peek (idx : Int)
  | shutdown (fd : Int)
  | close (fd : Int)
deriving DecidableEq, Repr

/-! ## `memcached_query_daemon`: opening the socket (lines 85-166) -/

/-- The `for (ai_ptr = ai_list; ...)` loop, lines 141-162; the second argument
is the current value of `fd`. Returns the value of `fd` after the loop. -/
def connect_loop : List addr_candidate → Int → Int × List Event
  | [], fd => (fd, [])
  | c :: cs, _ =>
    if c.sock < 0 then
      let r := connect_loop cs c.sock
      (r.1, [Event.socket c.sock, Event.ERROR "memcached: socket: %s"] ++ r.2)
    else if c.conn ≠ 0 then
      let r := connect_loop cs (-1)
      (r.1, [Event.socket c.sock, Event.connect c.sock c.conn,
             Event.shutdown c.sock, Event.close c.sock] ++ r.2)
    else
      (c.sock, [Event.socket c.sock, Event.connect c.sock c.conn])

/-- Lines 85-166: `none` is a `return -1` from inside this part; `some fd` is
the value of `fd` that reaches the test of line 168. -/
def open_socket (st : memcached_t) (w : World) : Option Int × List Event :=
  match st.socket with
  | some _ =>
    if w.unix_socket < 0 then
      (none, [Event.socket w.unix_socket, Event.ERROR "memcached: unix socket: %s"])
    else
      (some w.unix_socket, [Event.socket w.unix_socket])
  | none =>
    match st.port with
    | some p =>
      let host := st.host.getD MEMCACHED_DEF_HOST
      let port := if p.length = 0 then MEMCACHED_DEF_PORT else p
      match w.getaddrinfo host port with
      | none =>
        (none, [Event.getaddrinfo host port, Event.ERROR "memcached: getaddrinfo (%s, %s): %s"])
      | some ai_list =>
        let r := connect_loop ai_list (-1)
        (some r.1, [Event.getaddrinfo host port] ++ r.2 ++ [Event.freeaddrinfo])
    | none => (some (-1), [])

/-! ## `memcached_query_daemon`: the read loop (lines 211-238) -/

/-- The value of `buffer[k]`; for `k < 0` the byte in front of the buffer. -/
def peek (pre : Char) (buffer : List Char) (k : Int) : Char :=
  if k < 0 then pre else buffer.getD k.toNat NUL

/-- The test of line 234, with the buffer positions it reads (`&&` evaluates
from the left and stops at the first false operand). -/
def end_check (pre : Char) (buffer : List Char) (buffer_fill : Int) : Bool × List Event :=
  if buffer_fill > 3 then
    if peek pre buffer (buffer_fill - 5) = 'E' then
      if peek pre buffer (buffer_fill - 4) = 'N' then
        (decide (peek pre buffer (buffer_fill - 3) = 'D'),
          [Event.peek (buffer_fill - 5), Event.peek (buffer_fill - 4),
           Event.peek (buffer_fill - 3)])
      else (false, [Event.peek (buffer_fill - 5), Event.peek (buffer_fill - 4)])
    else (false, [Event.peek (buffer_fill - 5)])
  else (false, [])

/-- The bytes `recv` stores at `buffer + buffer_fill`. -/
def store (buffer : List Char) (buffer_fill : Nat) (got : List Char) : List Char :=
  buffer.take buffer_fill ++ got ++ buffer.drop (buffer_fill + got.length)

/-- How the read loop was left. -/
structure LoopResult where
  /-- whether the `return -1` of line 230 was taken -/
  returned : Bool
  buffer : List Char
  buffer_fill : Nat
  trace : List Event
deriving DecidableEq, Repr

/-- The `while ((status = recv (...)) != 0)` loop, lines 212-238. The last two
arguments are `buffer_fill` and `i`. -/
def recv_loop (fd : Int) (pre : Char) (buffer_size : Nat) :
    List RecvOutcome → List Char → Nat → Nat → LoopResult
  | [], buffer, buffer_fill, _ =>
    ⟨false, buffer, buffer_fill, [Event.recv fd buffer_fill (buffer_size - buffer_fill) 0]⟩
  | RecvOutcome.data bs :: os, buffer, buffer_fill, i =>
    let got := bs.take (buffer_size - buffer_fill)
    let ev := Event.recv fd buffer_fill (buffer_size - buffer_fill) got.length
    if got.length = 0 then
      ⟨false, buffer, buffer_fill, [ev]⟩
    else if i > MEMCACHED_RETRY_COUNT then
      ⟨false, store buffer buffer_fill got, buffer_fill, [ev, Event.ERROR "recv() timed out"]⟩
    else
      let buffer1 := store buffer buffer_fill got
      let fill1 := buffer_fill + got.length
      let chk := end_check pre buffer1 fill1
      if chk.1 then
        ⟨false, buffer1, fill1, ev :: chk.2⟩
      else
        let r := recv_loop fd pre buffer_size os buffer1 fill1 (i + 1)
        ⟨r.returned, r.buffer, r.buffer_fill, ev :: chk.2 ++ r.trace⟩
  | RecvOutcome.eagain :: os, buffer, buffer_fill, i =>
    let ev := Event.recv fd buffer_fill (buffer_size - buffer_fill) (-1)
    if i > MEMCACHED_RETRY_COUNT then
      ⟨false, buffer, buffer_fill, [ev, Event.ERROR "recv() timed out"]⟩
    else
      let r := recv_loop fd pre buffer_size os buffer buffer_fill (i + 1)
      ⟨r.returned, r.buffer, r.buffer_fill, ev :: r.trace⟩
  | RecvOutcome.fail :: _, buffer, buffer_fill, i =>
    let ev := Event.recv fd buffer_fill (buffer_size - buffer_fill) (-1)
    if i > MEMCACHED_RETRY_COUNT then
      ⟨false, buffer, buffer_fill, [ev, Event.ERROR "recv() timed out"]⟩
    else
      ⟨true, buffer, buffer_fill,
        [ev, Event.ERROR "memcached: Error reading from socket: %s",
         Event.shutdown fd, Event.close fd]⟩

/-! ## `memcached_query_daemon` (lines 76-254) -/

/-- Return value, final contents of `buffer` and the events of one call. -/
structure QueryResult where
  ret : Int
  buffer : List Char
  trace : List Event
deriving DecidableEq, Repr

/-- Lines 240-253: truncation, early shutdown of the peer, and the normal end. -/
def finish (fd : Int) (buffer_size : Nat) (buffer : List Char) (buffer_fill : Nat) :
    QueryResult :=
  if buffer_fill ≥ buffer_size then
    ⟨0, buffer.set (buffer_size - 1) NUL,
      [Event.WARNING "memcached: Message from memcached has been truncated.",
       Event.shutdown fd, Event.close fd]⟩
  else if buffer_fill = 0 then
    ⟨-1, buffer,
      [Event.WARNING "memcached: Peer has unexpectedly shut down the socket. Buffer: \x60%s\x27",
       Event.shutdown fd, Event.close fd]⟩
  else
    ⟨0, buffer, [Event.shutdown fd, Event.close fd]⟩

/-- Lines 168-254, from the test `fd < 0` on. -/
def query_with_fd (buffer : List Char) (buffer_size : Nat) (w : World) (fd : Int) :
    QueryResult :=
  if fd < 0 then
    ⟨-1, buffer, [Event.ERROR "memcached: Could not connect to daemon."]⟩
  else if w.send ≠ 7 then
    ⟨-1, buffer, [Event.send fd w.send,
      Event.ERROR "memcached: Could not send command to the memcached daemon."]⟩
  else if w.poll ≤ 0 then
    ⟨-1, buffer, [Event.send fd w.send, Event.poll fd w.poll,
      Event.ERROR (if w.poll = 0 then "memcached: poll(2) timed out after %.3f seconds."
                   else "memcached: poll(2) failed: %s"),
      Event.shutdown fd, Event.close fd]⟩
  else
    let l := recv_loop fd w.pre buffer_size w.recvs (List.replicate buffer_size NUL) 0 0
    if l.returned then
      ⟨-1, l.buffer, [Event.send fd w.send, Event.poll fd w.poll] ++ l.trace⟩
    else
      let f := finish fd buffer_size l.buffer l.buffer_fill
      ⟨f.ret, f.buffer, [Event.send fd w.send, Event.poll fd w.poll] ++ l.trace ++ f.trace⟩

/-- The function `memcached_query_daemon (buffer, buffer_size, user_data)`. -/
def memcached_query_daemon (buffer : List Char) (buffer_size : Nat) (st : memcached_t)
    (w : World) : QueryResult :=
  match open_socket st w with
  | (none, tr) => ⟨-1, buffer, tr⟩
  | (some fd, tr) =>
    let q := query_with_fd buffer buffer_size w fd
    ⟨q.ret, q.buffer, tr ++ q.trace⟩

/-! ## `memcached_read`: the dispatched records (lines 399-483) -/

/-- The type `double` (`gauge_t`) is kept abstract: `F` is the type of its
values and `Env` holds the operations `memcached_read` applies to them, next to
the functions of libc and of collectd that the file calls but does not define. -/
structure Env (F : Type) where
  /-- the macro `NAN` -/
  NAN : F
  /-- the macro `isnan (x)` -/
  isnan : F → Bool
  /-- the comparison `x <= y` of two doubles -/
  le : F → F → Bool
  /-- the comparison `x != 0.0` -/
  ne_zero : F → Bool
  /-- the difference `x - y` of two doubles -/
  sub : F → F → F
  /-- the product `100.0 * x` -/
  mul_100 : F → F
  /-- the quotient `x / y` of two doubles -/
  div : F → F → F
  /-- libc `atof` -/
  atof : List Char → F
  /-- libc `atoll` -/
  atoll : List Char → Int
  /-- collectd `strsplit (string, fields, size)`: the fields it stores; their
  number is the return value -/
  strsplit : List Char → Nat → List (List Char)
  /-- collectd global `hostname_g` -/
  hostname_g : List Char
  /-- collectd constant `DATA_MAX_NAME_LEN`, the size of the name fields of a
  `value_list_t` -/
  DATA_MAX_NAME_LEN : Nat

/-- One member of the union `value_t`. -/
inductive value_t (F : Type) where
  | derive (v : Int)
  | gauge (v : F)
deriving DecidableEq, Repr

/-- The fields of a `value_list_t` that the submit functions fill in. -/
structure value_list_t (F : Type) where
  values : List (value_t F)
  host : List Char
  plugin : List Char
  plugin_instance : List Char
  type : List Char
  type_instance : List Char
deriving DecidableEq, Repr

/-- collectd `sstrncpy (dest, src, n)`: the string left in `dest`. -/
def sstrncpy (n : Nat) (src : List Char) : List Char :=
  src.take (n - 1)

/-- The part shared by the four submit functions: a `VALUE_LIST_INIT` record
with `values`, `host`, `plugin`, `plugin_instance`, `type`, `type_instance`
filled in as in lines 407-415. -/
def submit {F : Type} (env : Env F) (type : String) (type_inst : Option (List Char))
    (values : List (value_t F)) (st : memcached_t) : value_list_t F :=
  { values := values
    host := sstrncpy env.DATA_MAX_NAME_LEN env.hostname_g
    plugin := sstrncpy env.DATA_MAX_NAME_LEN "memcached".toList
    plugin_instance := match st.name with
      | some n => sstrncpy env.DATA_MAX_NAME_LEN n.toList
      | none => []
    type := sstrncpy env.DATA_MAX_NAME_LEN type.toList
    type_instance := match type_inst with
      | some t => sstrncpy env.DATA_MAX_NAME_LEN t
      | none => [] }

def submit_derive {F : Type} (env : Env F) (type : String) (type_inst : Option (List Char))
    (value : Int) (st : memcached_t) : value_list_t F :=
  submit env type type_inst [value_t.derive value] st

def submit_derive2 {F : Type} (env : Env F) (type : String) (type_inst : Option (List Char))
    (value0 value1 : Int) (st : memcached_t) : value_list_t F :=
  submit env type type_inst [value_t.derive value0, value_t.derive value1] st

def submit_gauge {F : Type} (env : Env F) (type : String) (type_inst : Option (List Char))
    (value : F) (st : memcached_t) : value_list_t F :=
  submit env type type_inst [value_t.gauge value] st

def submit_gauge2 {F : Type} (env : Env F) (type : String) (type_inst : Option (List Char))
    (value0 value1 : F) (st : memcached_t) : value_list_t F :=
  submit env type type_inst [value_t.gauge value0, value_t.gauge value1] st

/-! ## `memcached_read`: the line loop (lines 494-622) -/

/-- The local variables of `memcached_read` that the line loop updates, with
the records dispatched so far (oldest first). -/
structure ReadState (F : Type) where
  bytes_used : F
  bytes_total : F
  hits : F
  gets : F
  rusage_user : Int
  rusage_syst : Int
  octets_rx : Int
  octets_tx : Int
  dispatched : List (value_list_t F)

/-- Lines 494-501: the initial values of the locals. -/
def ReadState.init {F : Type} (env : Env F) : ReadState F :=
  { bytes_used := env.NAN, bytes_total := env.NAN, hits := env.NAN, gets := env.NAN
    rusage_user := 0, rusage_syst := 0, octets_rx := 0, octets_tx := 0
    dispatched := [] }

/-- The body of the line loop, lines 518-621, for one `line`. -/
def process_line {F : Type} (env : Env F) (st : memcached_t) (s : ReadState F)
    (line : List Char) : ReadState F :=
  match env.strsplit line 3 with
  | [_, key, value] =>
    if key.length = 0 then s
    else if key = "rusage_user".toList then
      { s with rusage_user := env.atoll value }
    else if key = "rusage_system".toList then
      { s with rusage_syst := env.atoll value }
    else if key = "threads".toList then
      { s with dispatched := s.dispatched ++
          [submit_gauge2 env "ps_count" none env.NAN (env.atof value) st] }
    else if key = "curr_items".toList then
      { s with dispatched := s.dispatched ++
          [submit_gauge env "memcached_items" (some "current".toList) (env.atof value) st] }
    else if key = "bytes".toList then
      { s with bytes_used := env.atof value }
    else if key = "limit_maxbytes".toList then
      { s with bytes_total := env.atof value }
    else if key = "curr_connections".toList then
      { s with dispatched := s.dispatched ++
          [submit_gauge env "memcached_connections" (some "current".toList)
            (env.atof value) st] }
    else if key.length > 4 ∧ key.take 4 = "cmd_".toList then
      let name := key.drop 4
      let s1 := { s with dispatched := s.dispatched ++
          [submit_derive env "memcached_command" (some name) (env.atoll value) st] }
      if name = "get".toList then { s1 with gets := env.atof value } else s1
    else if key = "get_hits".toList then
      { s with
        dispatched := s.dispatched ++
          [submit_derive env "memcached_ops" (some "hits".toList) (env.atoll value) st]
        hits := env.atof value }
    else if key = "get_misses".toList then
      { s with dispatched := s.dispatched ++
          [submit_derive env "memcached_ops" (some "misses".toList) (env.atoll value) st] }
    else if key = "evictions".toList then
      { s with dispatched := s.dispatched ++
          [submit_derive env "memcached_ops" (some "evictions".toList) (env.atoll value) st] }
    else if key = "bytes_read".toList then
      { s with octets_rx := env.atoll value }
    else if key = "bytes_written".toList then
      { s with octets_tx := env.atoll value }
    else s
  | _ => s

/-- The successive results of `strtok_r (ptr, delim, &saveptr)` on a C string:
its maximal runs of bytes that are not in `delim`. The third argument is the
run being read. -/
def strtok_r (delim : List Char) : List Char → List Char → List (List Char)
  | [], cur => if cur = [] then [] else [cur]
  | c :: cs, cur =>
    if c ∈ delim then
      if cur = [] then strtok_r delim cs [] else cur :: strtok_r delim cs []
    else strtok_r delim cs (cur ++ [c])

/-- The C string that starts at the first byte of `mem`: the bytes in front of
the first NUL. -/
def c_string (mem : List Char) : List Char :=
  mem.takeWhile (fun c => c != NUL)

/-- Lines 624-641: the records derived from the accumulators. -/
def derived {F : Type} (env : Env F) (st : memcached_t) (s : ReadState F) :
    List (value_list_t F) :=
  (if !env.isnan s.bytes_used && !env.isnan s.bytes_total && env.le s.bytes_used s.bytes_total
    then [submit_gauge2 env "df" (some "cache".toList) s.bytes_used
            (env.sub s.bytes_total s.bytes_used) st]
    else []) ++
  (if s.rusage_user ≠ 0 ∨ s.rusage_syst ≠ 0
    then [submit_derive2 env "ps_cputime" none s.rusage_user s.rusage_syst st]
    else []) ++
  (if s.octets_rx ≠ 0 ∨ s.octets_tx ≠ 0
    then [submit_derive2 env "memcached_octets" none s.octets_rx s.octets_tx st]
    else []) ++
  (if !env.isnan s.gets && !env.isnan s.hits
    then [submit_gauge env "percent" (some "hitratio".toList)
            (if env.ne_zero s.gets then env.div (env.mul_100 s.hits) s.gets else env.NAN) st]
    else [])

/-- Lines 511-643 of `memcached_read`, on the memory that starts at `buf`:
the return value (the `return 0` of line 643) and the records dispatched, in
order. -/
def parse_stats {F : Type} (env : Env F) (st : memcached_t) (mem : List Char) :
    Int × List (value_list_t F) :=
  let s := (strtok_r ['\n', '\r'] (c_string mem) []).foldl (process_line env st)
    (ReadState.init env)
  (0, s.dispatched ++ derived env st s)

/-- Return value, dispatched records and events of one call of `memcached_read`. -/
structure ReadResult (F : Type) where
  ret : Int
  dispatched : List (value_list_t F)
  trace : List Event

/-- The function `memcached_read (user_data)`. -/
def memcached_read {F : Type} (env : Env F) (st : memcached_t) (w : World) : ReadResult F :=
  let q := memcached_query_daemon w.buf0 4096 st w
  if q.ret < 0 then ⟨-1, [], q.trace⟩
  else
    let r := parse_stats env st (q.buffer ++ w.beyond)
    ⟨r.1, r.2, q.trace⟩

/-! ## What a response holds -/

/-- The value field of the last of `lines` that `strsplit` cuts into three
fields of which the second is `key`. -/
def last_value {F : Type} (env : Env F) (key : List Char) (lines : List (List Char)) :
    Option (List Char) :=
  lines.foldl (fun acc line =>
    match env.strsplit line 3 with
    | [_, k, v] => if k = key then some v else acc
    | _ => acc) none

/-- The lines `memcached_read` reads from the memory that starts at `buf`. -/
def stat_lines (mem : List Char) : List (List Char) :=
  strtok_r ['\n', '\r'] (c_string mem) []

/-- The records of a given `type`. -/
def records_of_type {F : Type} (type : String) (rs : List (value_list_t F)) :
    List (value_list_t F) :=
  rs.filter (fun r => decide (r.type = type.toList))

/-- The types of the records that the line loop dispatches. -/
def line_types : List (List Char) :=
  ["ps_count".toList, "memcached_items".toList, "memcached_connections".toList,
   "memcached_command".toList, "memcached_ops".toList]

/-! ## Measures on traces -/

/-- Whether an event is a call of `recv`. -/
def is_recv : Event → Bool
  | Event.recv _ _ _ _ => true
  | _ => false

/-- An event of the connection phase: no `recv`, no warning, no read time-out. -/
def setup_event (e : Event) : Prop :=
  is_recv e = false ∧ e ≠ Event.ERROR "recv() timed out" ∧ ∀ m, e ≠ Event.WARNING m

/-! ## What the socket delivers -/

/-- The `recv` outcomes `recvs` hand the whole of the response `resp` to a
buffer of `buffer_size` bytes: `resp` is not empty and shorter than the buffer;
it arrives in at most `MEMCACHED_RETRY_COUNT + 1` reads, none of them empty;
the END check of line 234 fails after every read but the last; and after the
last read either the END check succeeds or the next `recv` returns 0. -/
def receives (pre : Char) (buffer_size : Nat) (recvs : List RecvOutcome) (resp : List Char) :
    Prop :=
  ∃ (chunks : List (List Char)) (rest : List RecvOutcome),
    recvs = chunks.map RecvOutcome.data ++ rest ∧
    chunks.flatten = resp ∧ resp ≠ [] ∧ resp.length < buffer_size ∧
    (∀ c ∈ chunks, c ≠ []) ∧
    chunks.length ≤ MEMCACHED_RETRY_COUNT + 1 ∧
    (∀ k, 0 < k → k < chunks.length →
      (end_check pre (chunks.take k).flatten ((chunks.take k).flatten.length : Int)).1
        = false) ∧
    ((end_check pre resp (resp.length : Int)).1 = true ∨ rest = [] ∨
      ∃ r, rest = RecvOutcome.data [] :: r)

/-! ## The arithmetic of `double`

IEEE-754 binary64 with rounding to nearest, ties to even, every operation
rounded once: the arithmetic of a C `double` (`gauge_t`). The general theorems
on `memcached_read` hold for every `Env`; this instance is the one in which the
values of the records are computed. -/

/-- A binary64 value. `fin neg m e` is `(-1)^neg * m * 2^e`, where either
`2^52 ≤ m < 2^53` and `-1074 ≤ e ≤ 971`, or `m < 2^52` and `e = -1074`
(subnormal numbers and the two zeros). The payload of a NaN is not recorded. -/
inductive Double where
  | nan
  | inf (neg : Bool)
  | fin (neg : Bool) (m : Nat) (e : Int)
deriving DecidableEq, Repr

namespace Double

/-- The number of times `n` can be halved before it is below 2, at most `fuel` times. -/
def log2_fuel : Nat → Nat → Nat
  | 0, _ => 0
  | fuel + 1, n => if n < 2 then 0 else log2_fuel fuel (n / 2) + 1

/-- For positive `n`, the `k` with `2^k ≤ n < 2^(k+1)`. -/
def log2 (n : Nat) : Nat := log2_fuel n n

/-- For positive `n` and `d`, the integer `k` with `2^k ≤ n / d < 2^(k+1)`. -/
def floor_log2 (n d : Nat) : Int :=
  let k : Int := (log2 n : Int) - (log2 d : Int)
  if 0 ≤ k then
    if d * 2 ^ k.toNat ≤ n then k else k - 1
  else
    if d ≤ n * 2 ^ (-k).toNat then k else k - 1

/-- The binary64 nearest to `(-1)^neg * n / d` (`d` positive), ties to even;
an infinity when the rounded value is `2^1024` or more. -/
def round (neg : Bool) (n d : Nat) : Double :=
  if n = 0 then fin neg 0 (-1074)
  else
    let e : Int := max (floor_log2 n d - 52) (-1074)
    let N : Nat := if 0 ≤ e then n else n * 2 ^ (-e).toNat
    let D : Nat := if 0 ≤ e then d * 2 ^ e.toNat else d
    let q := N / D
    let r := N % D
    let m := if D < 2 * r ∨ (2 * r = D ∧ q % 2 = 1) then q + 1 else q
    let m1 := if m = 2 ^ 53 then 2 ^ 52 else m
    let e1 := if m = 2 ^ 53 then e + 1 else e
    if 971 < e1 then inf neg else fin neg m1 e1

/-- The numerator of `m * 2^e` written as a fraction. -/
def num (m : Nat) (e : Int) : Nat := if 0 ≤ e then m * 2 ^ e.toNat else m

/-- The denominator of `m * 2^e` written as a fraction. -/
def den (e : Int) : Nat := if 0 ≤ e then 1 else 2 ^ (-e).toNat

/-- The sign as an integer factor. -/
def sgn (neg : Bool) : Int := if neg then -1 else 1

/-- The double nearest to a natural number (the conversion of an integer). -/
def ofNat (n : Nat) : Double := round false n 1

/-- The macro `isnan (x)`. -/
def isnan : Double → Bool
  | nan => true
  | _ => false

/-- The negation `-x`. -/
def neg : Double → Double
  | nan => nan
  | inf s => inf (!s)
  | fin s m e => fin (!s) m e

/-- The difference `x - y`. -/
def sub : Double → Double → Double
  | nan, _ => nan
  | _, nan => nan
  | inf a, inf b => if a = b then nan else inf a
  | inf a, fin _ _ _ => inf a
  | fin _ _ _, inf b => inf (!b)
  | fin a m1 e1, fin b m2 e2 =>
    let z : Int := sgn a * (num m1 e1 * den e2) - sgn b * (num m2 e2 * den e1)
    if z = 0 then fin (a && !b) 0 (-1074)
    else round (decide (z < 0)) z.natAbs (den e1 * den e2)

/-- The sum `x + y`. -/
def add (x y : Double) : Double := sub x (neg y)

/-- The product `100.0 * x`. -/
def mul_100 : Double → Double
  | nan => nan
  | inf s => inf s
  | fin s m e => round s (100 * num m e) (den e)

/-- The quotient `x / y`. -/
def div : Double → Double → Double
  | nan, _ => nan
  | _, nan => nan
  | inf _, inf _ => nan
  | inf a, fin b _ _ => inf (a != b)
  | fin a _ _, inf b => fin (a != b) 0 (-1074)
  | fin a m1 e1, fin b m2 e2 =>
    if m2 = 0 then
      if m1 = 0 then nan else inf (a != b)
    else round (a != b) (num m1 e1 * den e2) (den e1 * num m2 e2)

/-- The comparison `x <= y`. -/
def le : Double → Double → Bool
  | nan, _ => false
  | _, nan => false
  | inf a, inf b => a || !b
  | inf a, fin _ _ _ => a
  | fin _ _ _, inf b => !b
  | fin a m1 e1, fin b m2 e2 =>
    decide (sgn a * (num m1 e1 * den e2) ≤ sgn b * (num m2 e2 * den e1))

/-- The comparison `x != 0.0`. -/
def ne_zero : Double → Bool
  | nan => true
  | inf _ => true
  | fin _ m _ => decide (m ≠ 0)

end Double

/-- The `Env` of binary64 arithmetic, for given `atof`, `atoll`, `strsplit`,
`hostname_g` and `DATA_MAX_NAME_LEN`. -/
def ieee_env (atof : List Char → Double) (atoll : List Char → Int)
    (strsplit : List Char → Nat → List (List Char)) (hostname_g : List Char)
    (DATA_MAX_NAME_LEN : Nat) : Env Double where
  NAN := Double.nan
  isnan := Double.isnan
  le := Double.le
  ne_zero := Double.ne_zero
  sub := Double.sub
  mul_100 := Double.mul_100
  div := Double.div
  atof := atof
  atoll := atoll
  strsplit := strsplit
  hostname_g := hostname_g
  DATA_MAX_NAME_LEN := DATA_MAX_NAME_LEN

/-! ## A sample environment

The theorems below hold for every `Env` and every `World`; the following
instances are used to apply them to concrete inputs. -/

/-- Space and tab, the separators between the fields of a line. -/
def is_blank (c : Char) : Bool := c = ' ' || c = '\t'

/-- Modelled from the spec: collectd `strsplit` (defined in `common.c`), which
"tokenize[s] each non-empty line into at most 3 fields (further content after
the third field is retained as part of the third field, not further split)". -/
def strsplit_spec : List Char → Nat → List (List Char)
  | _, 0 => []
  | s, 1 =>
    let t := s.dropWhile is_blank
    if t = [] then [] else [t]
  | s, n + 2 =>
    let t := s.dropWhile is_blank
    if t = [] then []
    else t.takeWhile (fun c => !is_blank c) :: strsplit_spec (t.dropWhile (fun c => !is_blank c)) (n + 1)

/-- The value of the leading decimal digits of a string. -/
def leading_digits : List Char → Nat → Nat
  | [], acc => acc
  | c :: cs, acc => if c.isDigit then leading_digits cs (10 * acc + (c.toNat - 48)) else acc

/-- The value of libc `atof` on a string of decimal digits (possibly followed by
bytes that `atof` ignores) and on the text `nan`. -/
def atof_digits (s : List Char) : Double :=
  if s = "nan".toList then Double.nan else Double.ofNat (leading_digits s 0)

/-- A sample `Env`: binary64 arithmetic, numeric parsers that read leading
decimal digits, and the `strsplit` of the spec. -/
def sample_env : Env Double :=
  ieee_env atof_digits (fun s => (leading_digits s 0 : Int)) strsplit_spec "localhost".toList 64

/-- An instance with a host and a port, no socket path. -/
def sample_instance : memcached_t :=
  { name := some "cache", socket := none, host := some "127.0.0.1", port := some "11211" }

/-- A world in which resolution yields one address, `socket` returns
descriptor 3, `connect`, `send` and `poll` succeed, and the `recv` calls have
the given outcomes. -/
def sample_world (recvs : List RecvOutcome) : World :=
  { unix_socket := 3
    getaddrinfo := fun _ _ => some [⟨3, 0⟩]
    send := 7
    poll := 1
    recvs := recvs
    pre := NUL
    beyond := []
    buf0 := [] }

/-- A response of `22 * n + 59` bytes: two lines, `n` lines
`STAT pointer_size 64`, the line `STAT curr_items 1234567` and the terminator. -/
def padded_response (n : Nat) : List Char :=
  "STAT pid 123\r\nSTAT uptime 9\r\n".toList
    ++ (List.replicate n "STAT pointer_size 64\r\n".toList).flatten
    ++ "STAT curr_items 1234567\r\nEND\r\n".toList

/-! ## Lemmas on `strtok_r` and `c_string` -/

theorem strtok_r_delim (delim : List Char) (d : Char) (hd : d ∈ delim) (Z : List Char) :
    ∀ (X cur : List Char),
      strtok_r delim (X ++ d :: Z) cur = strtok_r delim (X ++ [d]) cur ++ strtok_r delim Z [] := by
  intro X
  induction X with
  | nil =>
    intro cur
    by_cases hc : cur = [] <;> simp [strtok_r, hd, hc]
  | cons x xs ih =>
    intro cur
    by_cases hx : x ∈ delim
    · by_cases hc : cur = [] <;> simp [strtok_r, hx, hc, ih]
    · simp [strtok_r, hx, ih]

theorem strtok_r_line (delim : List Char) (d : Char) (hd : d ∈ delim) :
    ∀ (L cur : List Char), (∀ c ∈ L, c ∉ delim) →
      strtok_r delim (L ++ [d]) cur = if cur ++ L = [] then [] else [cur ++ L] := by
  intro L
  induction L with
  | nil =>
    intro cur _
    by_cases hc : cur = [] <;> simp [strtok_r, hd, hc]
  | cons x xs ih =>
    intro cur h
    have hx : x ∉ delim := h x (by simp)
    have hxs : ∀ c ∈ xs, c ∉ delim := fun c hc => h c (by simp [hc])
    simp [strtok_r, hx, ih _ hxs]

theorem c_string_append (X Z : List Char) :
    c_string (X ++ Z) = if NUL ∈ X then c_string X else X ++ c_string Z := by
  induction X with
  | nil => simp [c_string]
  | cons x xs ih =>
    unfold c_string at ih ⊢
    by_cases hx : x = NUL
    · simp [hx]
    · have hx2 : ¬ NUL = x := fun h => hx h.symm
      simp only [List.cons_append, List.takeWhile_cons, bne_iff_ne, ne_eq, hx, not_false_eq_true,
        decide_True, ite_true, List.mem_cons, hx2, false_or, ih]
      split <;> simp

theorem process_line_unknown {F : Type} (env : Env F) (st : memcached_t) (s : ReadState F)
    (L f0 key value : List Char)
    (hsplit : env.strsplit L 3 = [f0, key, value])
    (hkey : key ∉ ["rusage_user".toList, "rusage_system".toList, "threads".toList,
      "curr_items".toList, "bytes".toList, "limit_maxbytes".toList,
      "curr_connections".toList, "get_hits".toList, "get_misses".toList,
      "evictions".toList, "bytes_read".toList, "bytes_written".toList])
    (hcmd : ¬ (key.length > 4 ∧ key.take 4 = "cmd_".toList)) :
    process_line env st s L = s := by
  simp only [List.mem_cons, List.mem_singleton, not_or, List.not_mem_nil, or_false] at hkey
  obtain ⟨h1, h2, h3, h4, h5, h6, h7, h8, h9, h10, h11, h12⟩ := hkey
  unfold process_line
  rw [hsplit]
  simp only [h1, h2, h3, h4, h5, h6, h7, h8, h9, h10, h11, h12, hcmd, if_false, ite_self]

theorem foldl_insert_noop {α β : Type} (f : α → β → α) (x : β) (hx : ∀ a, f a x = a)
    (A B : List β) (a : α) :
    (A ++ x :: B).foldl f a = (A ++ B).foldl f a := by
  simp [List.foldl_append, hx]

/-- A line that no branch of the line loop handles can be inserted between two
lines of the text in `buf` without changing what the line loop does. -/
theorem parse_stats_insert_unknown {F : Type} (env : Env F) (st : memcached_t)
    (X Y L f0 key value : List Char)
    (hL : ∀ c ∈ L, c ≠ '\n' ∧ c ≠ '\r' ∧ c ≠ NUL)
    (hsplit : env.strsplit L 3 = [f0, key, value])
    (hkey : key ∉ ["rusage_user".toList, "rusage_system".toList, "threads".toList,
      "curr_items".toList, "bytes".toList, "limit_maxbytes".toList,
      "curr_connections".toList, "get_hits".toList, "get_misses".toList,
      "evictions".toList, "bytes_read".toList, "bytes_written".toList])
    (hcmd : ¬ (key.length > 4 ∧ key.take 4 = "cmd_".toList)) :
    (∀ s : ReadState F, process_line env st s L = s) ∧
    parse_stats env st (X ++ ['\r', '\n'] ++ L ++ ['\r', '\n'] ++ Y)
      = parse_stats env st (X ++ ['\r', '\n'] ++ Y) := by
  have hnoop : ∀ s : ReadState F, process_line env st s L = s :=
    fun s => process_line_unknown env st s L f0 key value hsplit hkey hcmd
  refine ⟨hnoop, ?_⟩
  have hLd : ∀ c ∈ L, c ∉ ['\n', '\r'] := by
    intro c hc
    simp [(hL c hc).1, (hL c hc).2.1]
  have hLn : NUL ∉ L := fun h => (hL NUL h).2.2 rfl
  have hr : '\r' ∈ ['\n', '\r'] := by simp
  -- the lines read from both texts
  have htok : ∀ T : List Char,
      (strtok_r ['\n', '\r'] (X ++ ['\r', '\n'] ++ L ++ ['\r', '\n'] ++ T) []).foldl
          (process_line env st) (ReadState.init env)
        = (strtok_r ['\n', '\r'] (X ++ ['\r', '\n'] ++ T) []).foldl
          (process_line env st) (ReadState.init env) := by
    intro T
    have e1 : X ++ ['\r', '\n'] ++ L ++ ['\r', '\n'] ++ T
        = X ++ '\r' :: ('\n' :: (L ++ '\r' :: ('\n' :: T))) := by simp
    have e2 : X ++ ['\r', '\n'] ++ T = X ++ '\r' :: ('\n' :: T) := by simp
    have n1 : strtok_r ['\n', '\r'] (X ++ '\r' :: ('\n' :: (L ++ '\r' :: ('\n' :: T)))) []
        = strtok_r ['\n', '\r'] (X ++ ['\r']) []
          ++ ((if L = [] then [] else [L]) ++ strtok_r ['\n', '\r'] T []) := by
      rw [strtok_r_delim _ _ hr _ X []]
      have e3 : strtok_r ['\n', '\r'] ('\n' :: (L ++ '\r' :: ('\n' :: T))) []
          = strtok_r ['\n', '\r'] (L ++ '\r' :: ('\n' :: T)) [] := by
        simp [strtok_r]
      have e4 : strtok_r ['\n', '\r'] ('\n' :: T) [] = strtok_r ['\n', '\r'] T [] := by
        simp [strtok_r]
      rw [e3, strtok_r_delim _ _ hr _ L [], e4, strtok_r_line _ _ hr L [] hLd]
      simp
    have n2 : strtok_r ['\n', '\r'] (X ++ '\r' :: ('\n' :: T)) []
        = strtok_r ['\n', '\r'] (X ++ ['\r']) [] ++ strtok_r ['\n', '\r'] T [] := by
      rw [strtok_r_delim _ _ hr _ X []]
      simp [strtok_r]
    rw [e1, e2, n1, n2]
    by_cases hLe : L = []
    · simp [hLe]
    · simp only [hLe, if_false, List.singleton_append]
      exact foldl_insert_noop _ L hnoop _ _ _
  unfold parse_stats
  by_cases hX : NUL ∈ X
  · have c1 : c_string (X ++ ['\r', '\n'] ++ L ++ ['\r', '\n'] ++ Y) = c_string X := by
      rw [List.append_assoc, List.append_assoc, List.append_assoc, c_string_append, if_pos hX]
    have c2 : c_string (X ++ ['\r', '\n'] ++ Y) = c_string X := by
      rw [List.append_assoc, c_string_append, if_pos hX]
    rw [c1, c2]
  · have hn1 : NUL ∉ X ++ ['\r', '\n'] ++ L ++ ['\r', '\n'] := by
      have h0 : ¬ NUL = '\r' := by decide
      have h1 : ¬ NUL = '\n' := by decide
      simp [hX, hLn, h0, h1]
    have hn2 : NUL ∉ X ++ ['\r', '\n'] := by
      have h0 : ¬ NUL = '\r' := by decide
      have h1 : ¬ NUL = '\n' := by decide
      simp [hX, h0, h1]
    rw [c_string_append, if_neg hn1, c_string_append (X ++ ['\r', '\n']), if_neg hn2]
    simp only [htok]

/-! ## Lemmas on traces -/

theorem end_check_events (pre : Char) (buffer : List Char) (fill : Int) :
    ∀ e ∈ (end_check pre buffer fill).2, ∃ k, e = Event.peek k := by
  intro e he
  unfold end_check at he
  split_ifs at he <;> simp at he <;> aesop

/-- One iteration of the loop on a `data` outcome, with the received bytes named. -/
theorem recv_loop_data (fd : Int) (pre : Char) (buffer_size : Nat) (bs : List Char)
    (os : List RecvOutcome) (buffer : List Char) (fill i : Nat) (got : List Char)
    (hgot : bs.take (buffer_size - fill) = got) :
    recv_loop fd pre buffer_size (RecvOutcome.data bs :: os) buffer fill i
      = if got.length = 0 then
          ⟨false, buffer, fill, [Event.recv fd fill (buffer_size - fill) got.length]⟩
        else if i > MEMCACHED_RETRY_COUNT then
          ⟨false, store buffer fill got, fill,
            [Event.recv fd fill (buffer_size - fill) got.length, Event.ERROR "recv() timed out"]⟩
        else if (end_check pre (store buffer fill got) ((fill + got.length : Nat) : Int)).1 then
          ⟨false, store buffer fill got, fill + got.length,
            Event.recv fd fill (buffer_size - fill) got.length ::
              (end_check pre (store buffer fill got) ((fill + got.length : Nat) : Int)).2⟩
        else
          ⟨(recv_loop fd pre buffer_size os (store buffer fill got) (fill + got.length)
              (i + 1)).returned,
           (recv_loop fd pre buffer_size os (store buffer fill got) (fill + got.length)
              (i + 1)).buffer,
           (recv_loop fd pre buffer_size os (store buffer fill got) (fill + got.length)
              (i + 1)).buffer_fill,
           Event.recv fd fill (buffer_size - fill) got.length ::
              ((end_check pre (store buffer fill got) ((fill + got.length : Nat) : Int)).2 ++
            (recv_loop fd pre buffer_size os (store buffer fill got) (fill + got.length)
              (i + 1)).trace)⟩ := by
  subst hgot
  simp only [recv_loop, List.cons_append]

theorem recv_loop_timed_out (fd : Int) (pre : Char) (buffer_size : Nat) :
    ∀ (os : List RecvOutcome) (buffer : List Char) (fill i : Nat),
      Event.ERROR "recv() timed out" ∈ (recv_loop fd pre buffer_size os buffer fill i).trace →
      (recv_loop fd pre buffer_size os buffer fill i).returned = false := by
  intro os
  induction os with
  | nil => intro buffer fill i _; simp [recv_loop]
  | cons o os ih =>
    intro buffer fill i
    cases o with
    | data bs =>
      rw [recv_loop_data fd pre buffer_size bs os buffer fill i _ rfl]
      generalize List.take (buffer_size - fill) bs = got
      split_ifs with h1 h2 h3
      · simp
      · simp
      · simp
      · intro h
        simp only [List.mem_cons, List.mem_append] at h
        rcases h with h | h | h
        · cases h
        · obtain ⟨k, hk⟩ := end_check_events _ _ _ _ h
          cases hk
        · exact ih _ _ _ h
    | eagain =>
      simp only [recv_loop]
      split_ifs with h1
      · simp
      · intro h
        simp only [List.mem_cons] at h
        rcases h with h | h
        · cases h
        · exact ih _ _ _ h
    | fail =>
      simp only [recv_loop]
      split_ifs with h1
      · simp
      · intro h
        simp at h

theorem recv_loop_returned_closes (fd : Int) (pre : Char) (buffer_size : Nat) :
    ∀ (os : List RecvOutcome) (buffer : List Char) (fill i : Nat),
      (recv_loop fd pre buffer_size os buffer fill i).returned = true →
      [Event.shutdown fd, Event.close fd] <:+
        (recv_loop fd pre buffer_size os buffer fill i).trace := by
  intro os
  induction os with
  | nil => intro buffer fill i h; simp [recv_loop] at h
  | cons o os ih =>
    intro buffer fill i
    cases o with
    | data bs =>
      rw [recv_loop_data fd pre buffer_size bs os buffer fill i _ rfl]
      generalize List.take (buffer_size - fill) bs = got
      split_ifs with h1 h2 h3
      · simp
      · simp
      · simp
      · intro h
        obtain ⟨t, ht⟩ := ih _ _ _ h
        refine ⟨Event.recv fd fill (buffer_size - fill) got.length ::
          ((end_check pre (store buffer fill got) ((fill + got.length : Nat) : Int)).2 ++ t), ?_⟩
        simp only [List.cons_append, List.append_assoc, ht]
    | eagain =>
      simp only [recv_loop]
      split_ifs with h1
      · simp
      · intro h
        obtain ⟨t, ht⟩ := ih _ _ _ h
        exact ⟨Event.recv fd fill (buffer_size - fill) (-1) :: t, by simp [ht]⟩
    | fail =>
      simp only [recv_loop]
      split_ifs with h1
      · simp
      · intro _
        exact ⟨[Event.recv fd fill (buffer_size - fill) (-1),
          Event.ERROR "memcached: Error reading from socket: %s"], rfl⟩

/-! ## Lemmas on `open_socket` and `query_with_fd` -/

theorem connect_loop_events : ∀ (cs : List addr_candidate) (fd : Int),
    ∀ e ∈ (connect_loop cs fd).2, setup_event e := by
  intro cs
  induction cs with
  | nil => intro fd e he; simp [connect_loop] at he
  | cons c cs ih =>
    intro fd e he
    simp only [connect_loop] at he
    split_ifs at he with h1 h2
    · simp only [List.cons_append, List.nil_append, List.mem_cons] at he
      rcases he with rfl | rfl | he
      · exact ⟨rfl, by simp, by simp⟩
      · exact ⟨rfl, by decide, by simp⟩
      · exact ih _ e he
    · simp only [List.cons_append, List.nil_append, List.mem_cons] at he
      rcases he with rfl | rfl | rfl | rfl | he
      · exact ⟨rfl, by simp, by simp⟩
      · exact ⟨rfl, by simp, by simp⟩
      · exact ⟨rfl, by simp, by simp⟩
      · exact ⟨rfl, by simp, by simp⟩
      · exact ih _ e he
    · simp only [List.mem_cons, List.mem_singleton, List.not_mem_nil, or_false] at he
      rcases he with rfl | rfl
      · exact ⟨rfl, by simp, by simp⟩
      · exact ⟨rfl, by simp, by simp⟩

theorem open_socket_events (st : memcached_t) (w : World) :
    ∀ e ∈ (open_socket st w).2, setup_event e := by
  intro e he
  unfold open_socket at he
  cases hs : st.socket with
  | some s =>
    rw [hs] at he
    simp only at he
    split_ifs at he
    · simp only [List.mem_cons, List.mem_singleton, List.not_mem_nil, or_false] at he
      rcases he with rfl | rfl
      · exact ⟨rfl, by simp, by simp⟩
      · exact ⟨rfl, by decide, by simp⟩
    · simp only [List.mem_singleton] at he
      subst he
      exact ⟨rfl, by simp, by simp⟩
  | none =>
    rw [hs] at he
    cases hp : st.port with
    | none =>
      rw [hp] at he
      simp at he
    | some p =>
      rw [hp] at he
      simp only at he
      generalize st.host.getD MEMCACHED_DEF_HOST = host at he
      generalize (if p.length = 0 then MEMCACHED_DEF_PORT else p) = port at he
      cases hg : w.getaddrinfo host port with
      | none =>
        rw [hg] at he
        simp only [List.mem_cons, List.mem_singleton, List.not_mem_nil, or_false] at he
        rcases he with rfl | rfl
        · exact ⟨rfl, by simp, by simp⟩
        · exact ⟨rfl, by decide, by simp⟩
      | some ai_list =>
        rw [hg] at he
        simp only [List.cons_append, List.nil_append, List.mem_cons, List.mem_append,
          List.not_mem_nil, or_false] at he
        rcases he with rfl | he | rfl
        · exact ⟨rfl, by simp, by simp⟩
        · exact connect_loop_events _ _ e he
        · exact ⟨rfl, by simp, by simp⟩

theorem query_with_fd_timed_out (buffer : List Char) (buffer_size : Nat) (w : World) (fd : Int)
    (h : Event.ERROR "recv() timed out" ∈ (query_with_fd buffer buffer_size w fd).trace) :
    (recv_loop fd w.pre buffer_size w.recvs (List.replicate buffer_size NUL) 0 0).returned = false
    ∧ query_with_fd buffer buffer_size w fd =
      ⟨(finish fd buffer_size
          (recv_loop fd w.pre buffer_size w.recvs (List.replicate buffer_size NUL) 0 0).buffer
          (recv_loop fd w.pre buffer_size w.recvs (List.replicate buffer_size NUL) 0
            0).buffer_fill).ret,
        (finish fd buffer_size
          (recv_loop fd w.pre buffer_size w.recvs (List.replicate buffer_size NUL) 0 0).buffer
          (recv_loop fd w.pre buffer_size w.recvs (List.replicate buffer_size NUL) 0
            0).buffer_fill).buffer,
        [Event.send fd w.send, Event.poll fd w.poll] ++
          (recv_loop fd w.pre buffer_size w.recvs (List.replicate buffer_size NUL) 0 0).trace ++
          (finish fd buffer_size
            (recv_loop fd w.pre buffer_size w.recvs (List.replicate buffer_size NUL) 0 0).buffer
            (recv_loop fd w.pre buffer_size w.recvs (List.replicate buffer_size NUL) 0
              0).buffer_fill).trace⟩ := by
  have key := recv_loop_timed_out fd w.pre buffer_size w.recvs (List.replicate buffer_size NUL) 0 0
  unfold query_with_fd at h ⊢
  generalize recv_loop fd w.pre buffer_size w.recvs (List.replicate buffer_size NUL) 0 0 = l
    at h key ⊢
  by_cases h1 : fd < 0
  · simp [h1] at h
  by_cases h2 : w.send ≠ 7
  · simp [h1, h2] at h
  by_cases h3 : w.poll ≤ 0
  · rw [if_neg h1, if_neg h2, if_pos h3] at h
    simp only [List.mem_cons, List.mem_singleton, List.not_mem_nil, or_false] at h
    rcases h with h | h | h | h | h
    · cases h
    · cases h
    · exfalso
      split_ifs at h
      · exact absurd h (by decide)
      · exact absurd h (by decide)
    · cases h
    · cases h
  rw [if_neg h1, if_neg h2, if_neg h3] at h ⊢
  by_cases h4 : l.returned = true
  · simp only [h4, if_true] at h
    simp only [List.cons_append, List.nil_append, List.mem_cons] at h
    rcases h with h | h | h
    · cases h
    · cases h
    · rw [key h] at h4
      cases h4
  · simp only [h4]
    simp at h4
    simp [h4]

theorem finish_closes (fd : Int) (buffer_size : Nat) (buffer : List Char) (fill : Nat) :
    [Event.shutdown fd, Event.close fd] <:+ (finish fd buffer_size buffer fill).trace := by
  unfold finish
  split_ifs
  · exact ⟨[_], rfl⟩
  · exact ⟨[_], rfl⟩
  · exact ⟨[], rfl⟩

theorem finish_ret (fd : Int) (buffer_size : Nat) (buffer : List Char) (fill : Nat)
    (hsize : 0 < buffer_size) :
    (finish fd buffer_size buffer fill).ret = if fill = 0 then -1 else 0 := by
  unfold finish
  split_ifs <;> first | rfl | omega

theorem finish_buffer (fd : Int) (buffer_size : Nat) (buffer : List Char) (fill : Nat) :
    (finish fd buffer_size buffer fill).buffer
      = if buffer_size ≤ fill then buffer.set (buffer_size - 1) NUL else buffer := by
  unfold finish
  split_ifs <;> rfl

theorem memcached_query_daemon_some (buffer : List Char) (buffer_size : Nat) (st : memcached_t)
    (w : World) (fd : Int) (tr : List Event) (hopen : open_socket st w = (some fd, tr)) :
    memcached_query_daemon buffer buffer_size st w
      = ⟨(query_with_fd buffer buffer_size w fd).ret, (query_with_fd buffer buffer_size w fd).buffer,
          tr ++ (query_with_fd buffer buffer_size w fd).trace⟩ := by
  unfold memcached_query_daemon
  rw [hopen]

theorem store_append_zeros (done c : List Char) (k : Nat) :
    store (done ++ List.replicate k NUL) done.length c
      = (done ++ c) ++ List.replicate (k - c.length) NUL := by
  unfold store
  rw [List.take_left, List.drop_append_eq_append_drop]
  have h1 : List.drop (done.length + c.length) done = [] :=
    List.drop_eq_nil_of_le (by omega)
  rw [h1]
  simp

theorem peek_append (pre : Char) (p z : List Char) (k : Int) (hk : k < p.length) :
    peek pre (p ++ z) k = peek pre p k := by
  unfold peek
  split_ifs with h
  · rfl
  · have h2 : k.toNat < p.length := by omega
    simp [List.getElem?_append_left h2]

theorem end_check_append (pre : Char) (p z : List Char) :
    end_check pre (p ++ z) (p.length : Int) = end_check pre p (p.length : Int) := by
  unfold end_check
  rw [peek_append pre p z _ (by omega), peek_append pre p z _ (by omega),
    peek_append pre p z _ (by omega)]

theorem recv_loop_no_warning (fd : Int) (pre : Char) (buffer_size : Nat) (m : String) :
    ∀ (os : List RecvOutcome) (buffer : List Char) (fill i : Nat),
      Event.WARNING m ∉ (recv_loop fd pre buffer_size os buffer fill i).trace := by
  intro os
  induction os with
  | nil => intro buffer fill i; simp [recv_loop]
  | cons o os ih =>
    intro buffer fill i
    cases o with
    | data bs =>
      rw [recv_loop_data fd pre buffer_size bs os buffer fill i _ rfl]
      generalize List.take (buffer_size - fill) bs = got
      have hchk : Event.WARNING m ∉
          (end_check pre (store buffer fill got) ((fill + got.length : Nat) : Int)).2 := by
        intro h
        obtain ⟨k, hk⟩ := end_check_events _ _ _ _ h
        cases hk
      split_ifs with h1 h2 h3
      · simp
      · simp
      · simpa using hchk
      · simp only [List.mem_cons, List.mem_append, not_or]
        exact ⟨by simp, hchk, ih _ _ _⟩
    | eagain =>
      simp only [recv_loop]
      split_ifs with h1
      · simp
      · simp only [List.mem_cons, not_or]
        exact ⟨by simp, ih _ _ _⟩
    | fail =>
      simp only [recv_loop]
      split_ifs with h1
      · simp
      · simp

/-- Once the buffer is full every further `recv` asks for 0 bytes: the loop
ends without changing the buffer, unless a `recv` fails. -/
theorem recv_loop_full (fd : Int) (pre : Char) (buffer_size : Nat) (buffer : List Char) :
    ∀ (os : List RecvOutcome) (i : Nat), RecvOutcome.fail ∉ os →
      (recv_loop fd pre buffer_size os buffer buffer_size i).returned = false ∧
      (recv_loop fd pre buffer_size os buffer buffer_size i).buffer = buffer ∧
      (recv_loop fd pre buffer_size os buffer buffer_size i).buffer_fill = buffer_size := by
  intro os
  induction os with
  | nil => intro i _; simp [recv_loop]
  | cons o os ih =>
    intro i hf
    have hos : RecvOutcome.fail ∉ os := fun h => hf (by simp [h])
    cases o with
    | data bs => simp [recv_loop]
    | eagain =>
      simp only [recv_loop]
      split_ifs with h1
      · simp
      · exact ih (i + 1) hos
    | fail => simp at hf

theorem recv_loop_chunks (fd : Int) (pre : Char) (buffer_size : Nat) (rest : List RecvOutcome)
    (hrest : RecvOutcome.fail ∉ rest) :
    ∀ (chunks : List (List Char)) (done : List Char) (i : Nat),
      (∀ c ∈ chunks, c ≠ []) →
      done.length + chunks.flatten.length = buffer_size →
      i + chunks.length ≤ MEMCACHED_RETRY_COUNT + 1 →
      (∀ k, 0 < k → k < chunks.length →
        (end_check pre (done ++ (chunks.take k).flatten)
          ((done ++ (chunks.take k).flatten).length : Int)).1 = false) →
      (recv_loop fd pre buffer_size (chunks.map RecvOutcome.data ++ rest)
        (done ++ List.replicate (buffer_size - done.length) NUL) done.length i).returned = false ∧
      (recv_loop fd pre buffer_size (chunks.map RecvOutcome.data ++ rest)
        (done ++ List.replicate (buffer_size - done.length) NUL) done.length i).buffer
          = done ++ chunks.flatten ∧
      (recv_loop fd pre buffer_size (chunks.map RecvOutcome.data ++ rest)
        (done ++ List.replicate (buffer_size - done.length) NUL) done.length i).buffer_fill
          = buffer_size := by
  intro chunks
  induction chunks with
  | nil =>
    intro done i _ hlen _ _
    simp only [List.flatten_nil, List.length_nil, Nat.add_zero] at hlen
    subst hlen
    simpa using recv_loop_full fd pre done.length done rest i hrest
  | cons c cs ih =>
    intro done i hne hlen hcount hend
    have hc : c ≠ [] := hne c (by simp)
    have hcs : ∀ x ∈ cs, x ≠ [] := fun x hx => hne x (by simp [hx])
    simp only [List.flatten_cons, List.length_append] at hlen
    have hcl : 0 < c.length := List.length_pos.mpr hc
    have htake : c.take (buffer_size - done.length) = c := List.take_of_length_le (by omega)
    have hi : ¬ i > MEMCACHED_RETRY_COUNT := by
      simp only [List.length_cons] at hcount
      omega
    have hstore : store (done ++ List.replicate (buffer_size - done.length) NUL) done.length c
        = (done ++ c) ++ List.replicate (buffer_size - (done ++ c).length) NUL := by
      rw [store_append_zeros done c _]
      congr 2
      simp only [List.length_append]
      omega
    have hfill : done.length + c.length = (done ++ c).length := by simp
    simp only [List.map_cons, List.cons_append]
    rw [recv_loop_data fd pre buffer_size c _ _ _ _ c htake, if_neg (by omega), if_neg hi, hstore,
      hfill, end_check_append]
    have hrec := ih (done ++ c) (i + 1) hcs (by simp only [List.length_append]; omega)
      (by simp only [List.length_cons] at hcount; omega)
      (by
        intro k hk0 hk
        have := hend (k + 1) (by omega) (by simp only [List.length_cons]; omega)
        simpa [List.append_assoc] using this)
    by_cases hchk : (end_check pre (done ++ c) ((done ++ c).length : Int)).1 = true
    · rw [if_pos hchk]
      -- the END check can only succeed after the last read
      have hlast : cs = [] := by
        by_contra hcs0
        have hpos : 0 < cs.length := List.length_pos.mpr hcs0
        have := hend 1 (by omega) (by simp only [List.length_cons]; omega)
        simp only [List.take_succ_cons, List.take_zero, List.flatten_cons, List.flatten_nil,
          List.append_nil] at this
        rw [this] at hchk
        cases hchk
      subst hlast
      simp only [List.flatten_nil, List.length_nil, Nat.add_zero, List.append_nil] at hlen ⊢
      have h0 : buffer_size - (done ++ c).length = 0 := by
        simp only [List.length_append]; omega
      rw [h0]
      simp only [List.replicate_zero, List.append_nil, List.length_append, true_and]
      exact ⟨by simp, hlen⟩
    · rw [if_neg hchk]
      simpa [List.append_assoc] using hrec

/-- A response shorter than the buffer, read in pieces: the loop collects it and
leaves the zeros of the `memset` behind it. -/
theorem recv_loop_whole (fd : Int) (pre : Char) (buffer_size : Nat) (rest : List RecvOutcome) :
    ∀ (chunks : List (List Char)) (done : List Char) (i : Nat),
      (∀ c ∈ chunks, c ≠ []) →
      done.length + chunks.flatten.length < buffer_size →
      i + chunks.length ≤ MEMCACHED_RETRY_COUNT + 1 →
      (∀ k, 0 < k → k < chunks.length →
        (end_check pre (done ++ (chunks.take k).flatten)
          ((done ++ (chunks.take k).flatten).length : Int)).1 = false) →
      ((chunks ≠ [] ∧ (end_check pre (done ++ chunks.flatten)
          ((done ++ chunks.flatten).length : Int)).1 = true) ∨ rest = [] ∨
        ∃ r, rest = RecvOutcome.data [] :: r) →
      (recv_loop fd pre buffer_size (chunks.map RecvOutcome.data ++ rest)
        (done ++ List.replicate (buffer_size - done.length) NUL) done.length i).returned = false ∧
      (recv_loop fd pre buffer_size (chunks.map RecvOutcome.data ++ rest)
        (done ++ List.replicate (buffer_size - done.length) NUL) done.length i).buffer
          = (done ++ chunks.flatten)
            ++ List.replicate (buffer_size - (done ++ chunks.flatten).length) NUL ∧
      (recv_loop fd pre buffer_size (chunks.map RecvOutcome.data ++ rest)
        (done ++ List.replicate (buffer_size - done.length) NUL) done.length i).buffer_fill
          = (done ++ chunks.flatten).length := by
  intro chunks
  induction chunks with
  | nil =>
    intro done i _ _ _ _ hterm
    simp only [List.map_nil, List.nil_append, List.flatten_nil, List.append_nil]
    rcases hterm with ⟨h, _⟩ | h | ⟨r, h⟩
    · exact absurd rfl h
    · rw [h]; simp [recv_loop]
    · rw [h]; simp [recv_loop]
  | cons c cs ih =>
    intro done i hne hlen hcount hend hterm
    have hc : c ≠ [] := hne c (by simp)
    have hcs : ∀ x ∈ cs, x ≠ [] := fun x hx => hne x (by simp [hx])
    simp only [List.flatten_cons, List.length_append] at hlen
    have hcl : 0 < c.length := List.length_pos.mpr hc
    have htake : c.take (buffer_size - done.length) = c := List.take_of_length_le (by omega)
    have hi : ¬ i > MEMCACHED_RETRY_COUNT := by
      simp only [List.length_cons] at hcount
      omega
    have hstore : store (done ++ List.replicate (buffer_size - done.length) NUL) done.length c
        = (done ++ c) ++ List.replicate (buffer_size - (done ++ c).length) NUL := by
      rw [store_append_zeros done c _]
      congr 2
      simp only [List.length_append]
      omega
    have hfill : done.length + c.length = (done ++ c).length := by simp
    simp only [List.map_cons, List.cons_append]
    rw [recv_loop_data fd pre buffer_size c _ _ _ _ c htake, if_neg (by omega), if_neg hi, hstore,
      hfill, end_check_append]
    by_cases hchk : (end_check pre (done ++ c) ((done ++ c).length : Int)).1 = true
    · rw [if_pos hchk]
      have hlast : cs = [] := by
        by_contra hcs0
        have hpos : 0 < cs.length := List.length_pos.mpr hcs0
        have := hend 1 (by omega) (by simp only [List.length_cons]; omega)
        simp only [List.take_succ_cons, List.take_zero, List.flatten_cons, List.flatten_nil,
          List.append_nil] at this
        rw [this] at hchk
        cases hchk
      subst hlast
      simp
    · rw [if_neg hchk]
      have hterm2 : (cs ≠ [] ∧ (end_check pre ((done ++ c) ++ cs.flatten)
            (((done ++ c) ++ cs.flatten).length : Int)).1 = true) ∨ rest = [] ∨
          ∃ r, rest = RecvOutcome.data [] :: r := by
        rcases hterm with ⟨_, h⟩ | h
        · left
          simp only [List.flatten_cons, ← List.append_assoc] at h
          refine ⟨?_, h⟩
          intro hnil
          subst hnil
          simp only [List.flatten_nil, List.append_nil] at h
          exact hchk h
        · exact Or.inr h
      have hrec := ih (done ++ c) (i + 1) hcs (by simp only [List.length_append]; omega)
        (by simp only [List.length_cons] at hcount; omega)
        (by
          intro k hk0 hk
          have := hend (k + 1) (by omega) (by simp only [List.length_cons]; omega)
          simpa [List.append_assoc] using this)
        hterm2
      simpa [List.append_assoc] using hrec

theorem query_with_fd_loop (buffer : List Char) (buffer_size : Nat) (w : World) (fd : Int)
    (hfd : 0 ≤ fd) (hsend : w.send = 7) (hpoll : 0 < w.poll)
    (hret : (recv_loop fd w.pre buffer_size w.recvs (List.replicate buffer_size NUL) 0
      0).returned = false) :
    query_with_fd buffer buffer_size w fd =
      ⟨(finish fd buffer_size
          (recv_loop fd w.pre buffer_size w.recvs (List.replicate buffer_size NUL) 0 0).buffer
          (recv_loop fd w.pre buffer_size w.recvs (List.replicate buffer_size NUL) 0
            0).buffer_fill).ret,
        (finish fd buffer_size
          (recv_loop fd w.pre buffer_size w.recvs (List.replicate buffer_size NUL) 0 0).buffer
          (recv_loop fd w.pre buffer_size w.recvs (List.replicate buffer_size NUL) 0
            0).buffer_fill).buffer,
        [Event.send fd w.send, Event.poll fd w.poll] ++
          (recv_loop fd w.pre buffer_size w.recvs (List.replicate buffer_size NUL) 0 0).trace ++
          (finish fd buffer_size
            (recv_loop fd w.pre buffer_size w.recvs (List.replicate buffer_size NUL) 0 0).buffer
            (recv_loop fd w.pre buffer_size w.recvs (List.replicate buffer_size NUL) 0
              0).buffer_fill).trace⟩ := by
  unfold query_with_fd
  rw [if_neg (by omega), if_neg (by simp [hsend]), if_neg (by omega)]
  simp only [hret]
  simp

theorem query_peer_closed (buffer : List Char) (buffer_size : Nat) (st : memcached_t)
    (w : World) (fd : Int) (tr : List Event) (hsize : 0 < buffer_size)
    (hopen : open_socket st w = (some fd, tr)) (hfd : 0 ≤ fd)
    (hsend : w.send = 7) (hpoll : 0 < w.poll)
    (hrecv : w.recvs = [] ∨ ∃ rest, w.recvs = RecvOutcome.data [] :: rest) :
    memcached_query_daemon buffer buffer_size st w
      = ⟨-1, List.replicate buffer_size NUL,
          tr ++ [Event.send fd w.send, Event.poll fd w.poll, Event.recv fd 0 buffer_size 0,
          Event.WARNING "memcached: Peer has unexpectedly shut down the socket. Buffer: \x60%s\x27",
          Event.shutdown fd, Event.close fd]⟩ := by
  have hl : recv_loop fd w.pre buffer_size w.recvs (List.replicate buffer_size NUL) 0 0
      = ⟨false, List.replicate buffer_size NUL, 0, [Event.recv fd 0 buffer_size 0]⟩ := by
    rcases hrecv with h | ⟨rest, h⟩ <;> rw [h] <;> simp [recv_loop]
  rw [memcached_query_daemon_some _ _ _ _ _ _ hopen,
    query_with_fd_loop buffer buffer_size w fd hfd hsend hpoll (by rw [hl]), hl]
  have hne : ¬ buffer_size = 0 := by omega
  simp [finish, hne]

/-- A response received whole: the query succeeds and the buffer holds the
response followed by the zeros of the `memset`. -/
theorem query_receives (buffer : List Char) (buffer_size : Nat) (st : memcached_t) (w : World)
    (fd : Int) (tr : List Event) (resp : List Char)
    (hopen : open_socket st w = (some fd, tr)) (hfd : 0 ≤ fd)
    (hsend : w.send = 7) (hpoll : 0 < w.poll)
    (hrecv : receives w.pre buffer_size w.recvs resp) :
    (memcached_query_daemon buffer buffer_size st w).ret = 0 ∧
    (memcached_query_daemon buffer buffer_size st w).buffer
      = resp ++ List.replicate (buffer_size - resp.length) NUL := by
  obtain ⟨chunks, rest, hrecvs, hflat, hne, hlen, hchunks, hcount, hend, hterm⟩ := hrecv
  subst hflat
  have hcne : chunks ≠ [] := by
    intro h
    rw [h] at hne
    exact hne rfl
  obtain ⟨hret, hbuf, hfill⟩ := recv_loop_whole fd w.pre buffer_size rest chunks [] 0 hchunks
    (by simpa using hlen) (by simpa using hcount) (by simpa using hend)
    (by
      rcases hterm with h | h
      · exact Or.inl ⟨hcne, by simpa using h⟩
      · exact Or.inr h)
  simp only [List.nil_append, List.length_nil, Nat.sub_zero] at hret hbuf hfill
  rw [← hrecvs] at hret hbuf hfill
  rw [memcached_query_daemon_some _ _ _ _ _ _ hopen,
    query_with_fd_loop buffer buffer_size w fd hfd hsend hpoll hret, hbuf, hfill]
  have hlt : ¬ chunks.flatten.length ≥ buffer_size := by omega
  have hz : ¬ chunks.flatten.length = 0 := fun h => hne (List.length_eq_zero.mp h)
  unfold finish
  rw [if_neg hlt, if_neg hz]
  exact ⟨rfl, rfl⟩

/-- Where a port is configured (and no socket path), the connector resolves the
configured host, or `MEMCACHED_DEF_HOST`, with the configured port, or
`MEMCACHED_DEF_PORT` when the port is the empty string. -/
theorem port_configured_resolves (buffer : List Char) (buffer_size : Nat)
    (name host : Option String) (p : String) (w : World) :
    (memcached_query_daemon buffer buffer_size ⟨name, none, host, some p⟩ w).trace.head?
      = some (Event.getaddrinfo (host.getD MEMCACHED_DEF_HOST)
          (if p.length = 0 then MEMCACHED_DEF_PORT else p)) := by
  unfold memcached_query_daemon open_socket
  simp only
  cases w.getaddrinfo (host.getD MEMCACHED_DEF_HOST)
    (if p.length = 0 then MEMCACHED_DEF_PORT else p) <;> rfl

/-- Every exit after a successful `send` shuts the socket down and closes it. -/
theorem query_with_fd_closes (buffer : List Char) (buffer_size : Nat) (w : World) (fd : Int)
    (hfd : 0 ≤ fd) (hsend : w.send = 7) :
    [Event.shutdown fd, Event.close fd] <:+ (query_with_fd buffer buffer_size w fd).trace := by
  by_cases hpoll : w.poll ≤ 0
  · unfold query_with_fd
    rw [if_neg (by omega), if_neg (by simp [hsend]), if_pos hpoll]
    exact ⟨[_, _, _], rfl⟩
  · by_cases hret : (recv_loop fd w.pre buffer_size w.recvs (List.replicate buffer_size NUL) 0
        0).returned = true
    · obtain ⟨t, ht⟩ := recv_loop_returned_closes fd w.pre buffer_size w.recvs
        (List.replicate buffer_size NUL) 0 0 hret
      unfold query_with_fd
      rw [if_neg (by omega), if_neg (by simp [hsend]), if_neg hpoll]
      simp only [hret, if_true]
      exact ⟨[Event.send fd w.send, Event.poll fd w.poll] ++ t, by rw [← ht]; simp⟩
    · rw [query_with_fd_loop buffer buffer_size w fd hfd hsend (by omega) (by simpa using hret)]
      obtain ⟨t, ht⟩ := finish_closes fd buffer_size
        (recv_loop fd w.pre buffer_size w.recvs (List.replicate buffer_size NUL) 0 0).buffer
        (recv_loop fd w.pre buffer_size w.recvs (List.replicate buffer_size NUL) 0 0).buffer_fill
      exact ⟨[Event.send fd w.send, Event.poll fd w.poll] ++
        (recv_loop fd w.pre buffer_size w.recvs (List.replicate buffer_size NUL) 0 0).trace ++ t,
        by rw [← ht]; simp⟩

/-! ## The read loop looks at no more than `MEMCACHED_RETRY_COUNT + 2` outcomes -/

/-- The loop never calls `recv` more than `MEMCACHED_RETRY_COUNT + 2` times: a
list of outcomes that long determines its result, whatever follows. -/
theorem recv_loop_ignores_tail (fd : Int) (pre : Char) (buffer_size : Nat)
    (extra : List RecvOutcome) :
    ∀ (os : List RecvOutcome) (buffer : List Char) (fill i : Nat),
      os ≠ [] → MEMCACHED_RETRY_COUNT + 2 ≤ i + os.length →
      recv_loop fd pre buffer_size (os ++ extra) buffer fill i
        = recv_loop fd pre buffer_size os buffer fill i := by
  intro os
  induction os with
  | nil => intro buffer fill i h; exact absurd rfl h
  | cons o os ih =>
    intro buffer fill i _ hlen
    simp only [List.length_cons] at hlen
    have hrec : ∀ (b : List Char) (f : Nat), ¬ i > MEMCACHED_RETRY_COUNT →
        recv_loop fd pre buffer_size (os ++ extra) b f (i + 1)
          = recv_loop fd pre buffer_size os b f (i + 1) := by
      intro b f hi
      have hne : os ≠ [] := by
        intro h
        rw [h] at hlen
        simp only [List.length_nil] at hlen
        omega
      exact ih b f (i + 1) hne (by omega)
    cases o with
    | data bs =>
      rw [List.cons_append, recv_loop_data fd pre buffer_size bs _ buffer fill i _ rfl,
        recv_loop_data fd pre buffer_size bs _ buffer fill i _ rfl]
      split_ifs with h1 h2 h3
      · rfl
      · rfl
      · rfl
      · rw [hrec _ _ h2]
    | eagain =>
      simp only [List.cons_append, recv_loop]
      split_ifs with h1
      · rfl
      · have := hrec buffer fill h1
        rw [show os.append extra = os ++ extra from rfl, this]
    | fail =>
      simp only [List.cons_append, recv_loop]

/-! ## Lemmas on `memcached_read` -/

theorem c_string_zeros (resp tail : List Char) (n : Nat) (hn : 0 < n) :
    c_string (resp ++ List.replicate n NUL ++ tail) = c_string resp := by
  rw [List.append_assoc, c_string_append]
  by_cases h : NUL ∈ resp
  · rw [if_pos h]
  · rw [if_neg h]
    obtain ⟨m, rfl⟩ : ∃ m, n = m + 1 := ⟨n - 1, by omega⟩
    have h1 : c_string (List.replicate (m + 1) NUL ++ tail) = [] := by
      simp [c_string, List.replicate_succ]
    have h2 : c_string resp = resp := by
      unfold c_string
      rw [List.takeWhile_eq_self_iff]
      intro c hc
      simp only [bne_iff_ne, ne_eq]
      intro hcn
      exact h (hcn ▸ hc)
    rw [h1, h2, List.append_nil]

theorem parse_stats_zeros {F : Type} (env : Env F) (st : memcached_t) (resp tail : List Char)
    (n : Nat) (hn : 0 < n) :
    parse_stats env st (resp ++ List.replicate n NUL ++ tail) = parse_stats env st resp := by
  unfold parse_stats
  rw [c_string_zeros resp tail n hn]

/-- After a response received whole, `memcached_read` returns 0 and dispatches
the records of the line loop on that response. -/
theorem memcached_read_receives {F : Type} (env : Env F) (st : memcached_t) (w : World)
    (fd : Int) (tr : List Event) (resp : List Char)
    (hopen : open_socket st w = (some fd, tr)) (hfd : 0 ≤ fd)
    (hsend : w.send = 7) (hpoll : 0 < w.poll)
    (hrecv : receives w.pre 4096 w.recvs resp) :
    (memcached_read env st w).ret = 0 ∧
    (memcached_read env st w).dispatched = (parse_stats env st resp).2 := by
  obtain ⟨hret, hbuf⟩ := query_receives w.buf0 4096 st w fd tr resp hopen hfd hsend hpoll hrecv
  have hlen : 0 < 4096 - resp.length := by
    obtain ⟨_, _, _, _, _, h, _⟩ := hrecv
    omega
  unfold memcached_read
  simp only [hret, hbuf]
  rw [if_neg (by decide), parse_stats_zeros env st resp w.beyond _ hlen]
  exact ⟨rfl, rfl⟩

/-- What `memcached_read` does with the result of the query. -/
theorem memcached_read_eq {F : Type} (env : Env F) (st : memcached_t) (w : World) :
    ((memcached_query_daemon w.buf0 4096 st w).ret < 0 →
      (memcached_read env st w).ret = -1 ∧ (memcached_read env st w).dispatched = []) ∧
    (0 ≤ (memcached_query_daemon w.buf0 4096 st w).ret →
      (memcached_read env st w).ret = 0 ∧
      (memcached_read env st w).dispatched
        = (parse_stats env st ((memcached_query_daemon w.buf0 4096 st w).buffer ++ w.beyond)).2) := by
  unfold memcached_read
  constructor
  · intro h
    simp only [h, if_true, and_self]
  · intro h
    have h2 : ¬ (memcached_query_daemon w.buf0 4096 st w).ret < 0 := by omega
    simp only [h2, if_false]
    exact ⟨rfl, trivial⟩

/-! ## Lemmas on the line loop -/

theorem process_line_skip {F : Type} (env : Env F) (st : memcached_t) (s : ReadState F)
    (line : List Char) (h : ∀ f0 key value, env.strsplit line 3 ≠ [f0, key, value]) :
    process_line env st s line = s := by
  unfold process_line
  split
  · rename_i f0 key value heq
    exact absurd heq (h f0 key value)
  · rfl

theorem process_line_frame_bytes_used {F : Type} (env : Env F) (st : memcached_t)
    (s : ReadState F) (line f0 key value : List Char)
    (heq : env.strsplit line 3 = [f0, key, value]) (hk : ¬ key = "bytes".toList) :
    (process_line env st s line).bytes_used = s.bytes_used := by
  unfold process_line
  rw [heq]
  simp only
  by_cases h0 : key.length = 0
  · rw [if_pos h0]
  rw [if_neg h0]
  by_cases h1 : key = "rusage_user".toList
  · rw [if_pos h1]
  rw [if_neg h1]
  by_cases h2 : key = "rusage_system".toList
  · rw [if_pos h2]
  rw [if_neg h2]
  by_cases h3 : key = "threads".toList
  · rw [if_pos h3]
  rw [if_neg h3]
  by_cases h4 : key = "curr_items".toList
  · rw [if_pos h4]
  rw [if_neg h4]
  rw [if_neg hk]
  by_cases h6 : key = "limit_maxbytes".toList
  · rw [if_pos h6]
  rw [if_neg h6]
  by_cases h7 : key = "curr_connections".toList
  · rw [if_pos h7]
  rw [if_neg h7]
  by_cases h8 : key.length > 4 ∧ List.take 4 key = "cmd_".toList
  · rw [if_pos h8]
    by_cases hg : List.drop 4 key = "get".toList
    · rw [if_pos hg]
    · rw [if_neg hg]
  rw [if_neg h8]
  by_cases h9 : key = "get_hits".toList
  · rw [if_pos h9]
  rw [if_neg h9]
  by_cases h10 : key = "get_misses".toList
  · rw [if_pos h10]
  rw [if_neg h10]
  by_cases h11 : key = "evictions".toList
  · rw [if_pos h11]
  rw [if_neg h11]
  by_cases h12 : key = "bytes_read".toList
  · rw [if_pos h12]
  rw [if_neg h12]
  by_cases h13 : key = "bytes_written".toList
  · rw [if_pos h13]
  rw [if_neg h13]

theorem process_line_set_bytes_used {F : Type} (env : Env F) (st : memcached_t)
    (s : ReadState F) (line f0 value : List Char)
    (heq : env.strsplit line 3 = [f0, "bytes".toList, value]) :
    (process_line env st s line).bytes_used = env.atof value := by
  unfold process_line
  rw [heq]
  simp only
  rw [if_neg (by decide), if_neg (by decide), if_neg (by decide), if_neg (by decide), if_neg (by decide), if_true]

theorem process_line_frame_bytes_total {F : Type} (env : Env F) (st : memcached_t)
    (s : ReadState F) (line f0 key value : List Char)
    (heq : env.strsplit line 3 = [f0, key, value]) (hk : ¬ key = "limit_maxbytes".toList) :
    (process_line env st s line).bytes_total = s.bytes_total := by
  unfold process_line
  rw [heq]
  simp only
  by_cases h0 : key.length = 0
  · rw [if_pos h0]
  rw [if_neg h0]
  by_cases h1 : key = "rusage_user".toList
  · rw [if_pos h1]
  rw [if_neg h1]
  by_cases h2 : key = "rusage_system".toList
  · rw [if_pos h2]
  rw [if_neg h2]
  by_cases h3 : key = "threads".toList
  · rw [if_pos h3]
  rw [if_neg h3]
  by_cases h4 : key = "curr_items".toList
  · rw [if_pos h4]
  rw [if_neg h4]
  by_cases h5 : key = "bytes".toList
  · rw [if_pos h5]
  rw [if_neg h5]
  rw [if_neg hk]
  by_cases h7 : key = "curr_connections".toList
  · rw [if_pos h7]
  rw [if_neg h7]
  by_cases h8 : key.length > 4 ∧ List.take 4 key = "cmd_".toList
  · rw [if_pos h8]
    by_cases hg : List.drop 4 key = "get".toList
    · rw [if_pos hg]
    · rw [if_neg hg]
  rw [if_neg h8]
  by_cases h9 : key = "get_hits".toList
  · rw [if_pos h9]
  rw [if_neg h9]
  by_cases h10 : key = "get_misses".toList
  · rw [if_pos h10]
  rw [if_neg h10]
  by_cases h11 : key = "evictions".toList
  · rw [if_pos h11]
  rw [if_neg h11]
  by_cases h12 : key = "bytes_read".toList
  · rw [if_pos h12]
  rw [if_neg h12]
  by_cases h13 : key = "bytes_written".toList
  · rw [if_pos h13]
  rw [if_neg h13]

theorem process_line_set_bytes_total {F : Type} (env : Env F) (st : memcached_t)
    (s : ReadState F) (line f0 value : List Char)
    (heq : env.strsplit line 3 = [f0, "limit_maxbytes".toList, value]) :
    (process_line env st s line).bytes_total = env.atof value := by
  unfold process_line
  rw [heq]
  simp only
  rw [if_neg (by decide), if_neg (by decide), if_neg (by decide), if_neg (by decide), if_neg (by decide), if_neg (by decide), if_true]

theorem process_line_frame_hits {F : Type} (env : Env F) (st : memcached_t)
    (s : ReadState F) (line f0 key value : List Char)
    (heq : env.strsplit line 3 = [f0, key, value]) (hk : ¬ key = "get_hits".toList) :
    (process_line env st s line).hits = s.hits := by
  unfold process_line
  rw [heq]
  simp only
  by_cases h0 : key.length = 0
  · rw [if_pos h0]
  rw [if_neg h0]
  by_cases h1 : key = "rusage_user".toList
  · rw [if_pos h1]
  rw [if_neg h1]
  by_cases h2 : key = "rusage_system".toList
  · rw [if_pos h2]
  rw [if_neg h2]
  by_cases h3 : key = "threads".toList
  · rw [if_pos h3]
  rw [if_neg h3]
  by_cases h4 : key = "curr_items".toList
  · rw [if_pos h4]
  rw [if_neg h4]
  by_cases h5 : key = "bytes".toList
  · rw [if_pos h5]
  rw [if_neg h5]
  by_cases h6 : key = "limit_maxbytes".toList
  · rw [if_pos h6]
  rw [if_neg h6]
  by_cases h7 : key = "curr_connections".toList
  · rw [if_pos h7]
  rw [if_neg h7]
  by_cases h8 : key.length > 4 ∧ List.take 4 key = "cmd_".toList
  · rw [if_pos h8]
    by_cases hg : List.drop 4 key = "get".toList
    · rw [if_pos hg]
    · rw [if_neg hg]
  rw [if_neg h8]
  rw [if_neg hk]
  by_cases h10 : key = "get_misses".toList
  · rw [if_pos h10]
  rw [if_neg h10]
  by_cases h11 : key = "evictions".toList
  · rw [if_pos h11]
  rw [if_neg h11]
  by_cases h12 : key = "bytes_read".toList
  · rw [if_pos h12]
  rw [if_neg h12]
  by_cases h13 : key = "bytes_written".toList
  · rw [if_pos h13]
  rw [if_neg h13]

theorem process_line_set_hits {F : Type} (env : Env F) (st : memcached_t)
    (s : ReadState F) (line f0 value : List Char)
    (heq : env.strsplit line 3 = [f0, "get_hits".toList, value]) :
    (process_line env st s line).hits = env.atof value := by
  unfold process_line
  rw [heq]
  simp only
  rw [if_neg (by decide), if_neg (by decide), if_neg (by decide), if_neg (by decide), if_neg (by decide), if_neg (by decide), if_neg (by decide), if_neg (by decide), if_neg (by decide), if_true]

theorem process_line_frame_gets {F : Type} (env : Env F) (st : memcached_t)
    (s : ReadState F) (line f0 key value : List Char)
    (heq : env.strsplit line 3 = [f0, key, value]) (hk : ¬ key = "cmd_get".toList) :
    (process_line env st s line).gets = s.gets := by
  unfold process_line
  rw [heq]
  simp only
  by_cases h0 : key.length = 0
  · rw [if_pos h0]
  rw [if_neg h0]
  by_cases h1 : key = "rusage_user".toList
  · rw [if_pos h1]
  rw [if_neg h1]
  by_cases h2 : key = "rusage_system".toList
  · rw [if_pos h2]
  rw [if_neg h2]
  by_cases h3 : key = "threads".toList
  · rw [if_pos h3]
  rw [if_neg h3]
  by_cases h4 : key = "curr_items".toList
  · rw [if_pos h4]
  rw [if_neg h4]
  by_cases h5 : key = "bytes".toList
  · rw [if_pos h5]
  rw [if_neg h5]
  by_cases h6 : key = "limit_maxbytes".toList
  · rw [if_pos h6]
  rw [if_neg h6]
  by_cases h7 : key = "curr_connections".toList
  · rw [if_pos h7]
  rw [if_neg h7]
  by_cases h8 : key.length > 4 ∧ List.take 4 key = "cmd_".toList
  · rw [if_pos h8]
    by_cases hg : List.drop 4 key = "get".toList
    · exact absurd (by rw [← List.take_append_drop 4 key, h8.2, hg]; rfl) hk
    · rw [if_neg hg]
  rw [if_neg h8]
  by_cases h9 : key = "get_hits".toList
  · rw [if_pos h9]
  rw [if_neg h9]
  by_cases h10 : key = "get_misses".toList
  · rw [if_pos h10]
  rw [if_neg h10]
  by_cases h11 : key = "evictions".toList
  · rw [if_pos h11]
  rw [if_neg h11]
  by_cases h12 : key = "bytes_read".toList
  · rw [if_pos h12]
  rw [if_neg h12]
  by_cases h13 : key = "bytes_written".toList
  · rw [if_pos h13]
  rw [if_neg h13]

theorem process_line_set_gets {F : Type} (env : Env F) (st : memcached_t)
    (s : ReadState F) (line f0 value : List Char)
    (heq : env.strsplit line 3 = [f0, "cmd_get".toList, value]) :
    (process_line env st s line).gets = env.atof value := by
  unfold process_line
  rw [heq]
  simp only
  rw [if_neg (by decide), if_neg (by decide), if_neg (by decide), if_neg (by decide),
    if_neg (by decide), if_neg (by decide), if_neg (by decide), if_neg (by decide),
    if_pos (by decide), if_pos (by decide)]

theorem sstrncpy_short (n : Nat) (l : List Char) (h : l.length < n) : sstrncpy n l = l := by
  unfold sstrncpy
  exact List.take_of_length_le (by omega)

theorem submit_type {F : Type} (env : Env F) (type : String) (type_inst : Option (List Char))
    (values : List (value_t F)) (st : memcached_t)
    (h : type.toList.length < env.DATA_MAX_NAME_LEN) :
    (submit env type type_inst values st).type = type.toList :=
  sstrncpy_short _ _ h

/-- The records the line loop dispatches have one of the types of `line_types`. -/
theorem process_line_dispatched {F : Type} (env : Env F) (st : memcached_t) (s : ReadState F)
    (line : List Char) (hlen : 22 ≤ env.DATA_MAX_NAME_LEN) :
    ∃ extra, (process_line env st s line).dispatched = s.dispatched ++ extra ∧
      ∀ r ∈ extra, r.type ∈ line_types := by
  have hty : ∀ (type : String) (ti : Option (List Char)) (vals : List (value_t F))
      (r : value_list_t F), type.toList.length < 22 → type.toList ∈ line_types →
      (r = submit env type ti vals st → r.type ∈ line_types) := by
    intro type ti vals r h1 h2 hr
    rw [hr, submit_type env type ti vals st (by omega)]
    exact h2
  have hty : ∀ (type : String) (ti : Option (List Char)) (vals : List (value_t F)),
      type.toList.length < 22 → type.toList ∈ line_types →
      (submit env type ti vals st).type ∈ line_types := by
    intro type ti vals h1 h2
    exact hty type ti vals _ h1 h2 rfl
  unfold process_line
  split
  · rename_i f0 key value heq
    simp only
    by_cases h0 : key.length = 0
    · rw [if_pos h0]
      exact ⟨[], (List.append_nil _).symm, fun _ h => absurd h (List.not_mem_nil _)⟩
    rw [if_neg h0]
    by_cases h1 : key = "rusage_user".toList
    · rw [if_pos h1]
      exact ⟨[], (List.append_nil _).symm, fun _ h => absurd h (List.not_mem_nil _)⟩
    rw [if_neg h1]
    by_cases h2 : key = "rusage_system".toList
    · rw [if_pos h2]
      exact ⟨[], (List.append_nil _).symm, fun _ h => absurd h (List.not_mem_nil _)⟩
    rw [if_neg h2]
    by_cases h3 : key = "threads".toList
    · rw [if_pos h3]
      exact ⟨[_], rfl, fun r hr => by rw [List.mem_singleton.mp hr]; exact hty _ _ _ (by decide) (by decide)⟩
    rw [if_neg h3]
    by_cases h4 : key = "curr_items".toList
    · rw [if_pos h4]
      exact ⟨[_], rfl, fun r hr => by rw [List.mem_singleton.mp hr]; exact hty _ _ _ (by decide) (by decide)⟩
    rw [if_neg h4]
    by_cases h5 : key = "bytes".toList
    · rw [if_pos h5]
      exact ⟨[], (List.append_nil _).symm, fun _ h => absurd h (List.not_mem_nil _)⟩
    rw [if_neg h5]
    by_cases h6 : key = "limit_maxbytes".toList
    · rw [if_pos h6]
      exact ⟨[], (List.append_nil _).symm, fun _ h => absurd h (List.not_mem_nil _)⟩
    rw [if_neg h6]
    by_cases h7 : key = "curr_connections".toList
    · rw [if_pos h7]
      exact ⟨[_], rfl, fun r hr => by rw [List.mem_singleton.mp hr]; exact hty _ _ _ (by decide) (by decide)⟩
    rw [if_neg h7]
    by_cases h8 : key.length > 4 ∧ List.take 4 key = "cmd_".toList
    · rw [if_pos h8]
      by_cases hg : List.drop 4 key = "get".toList
      · rw [if_pos hg]
        exact ⟨[_], rfl, fun r hr => by rw [List.mem_singleton.mp hr]; exact hty _ _ _ (by decide) (by decide)⟩
      · rw [if_neg hg]
        exact ⟨[_], rfl, fun r hr => by rw [List.mem_singleton.mp hr]; exact hty _ _ _ (by decide) (by decide)⟩
    rw [if_neg h8]
    by_cases h9 : key = "get_hits".toList
    · rw [if_pos h9]
      exact ⟨[_], rfl, fun r hr => by rw [List.mem_singleton.mp hr]; exact hty _ _ _ (by decide) (by decide)⟩
    rw [if_neg h9]
    by_cases h10 : key = "get_misses".toList
    · rw [if_pos h10]
      exact ⟨[_], rfl, fun r hr => by rw [List.mem_singleton.mp hr]; exact hty _ _ _ (by decide) (by decide)⟩
    rw [if_neg h10]
    by_cases h11 : key = "evictions".toList
    · rw [if_pos h11]
      exact ⟨[_], rfl, fun r hr => by rw [List.mem_singleton.mp hr]; exact hty _ _ _ (by decide) (by decide)⟩
    rw [if_neg h11]
    by_cases h12 : key = "bytes_read".toList
    · rw [if_pos h12]
      exact ⟨[], (List.append_nil _).symm, fun _ h => absurd h (List.not_mem_nil _)⟩
    rw [if_neg h12]
    by_cases h13 : key = "bytes_written".toList
    · rw [if_pos h13]
      exact ⟨[], (List.append_nil _).symm, fun _ h => absurd h (List.not_mem_nil _)⟩
    rw [if_neg h13]
    exact ⟨[], (List.append_nil _).symm, fun _ h => absurd h (List.not_mem_nil _)⟩
  · exact ⟨[], (List.append_nil _).symm, fun _ h => absurd h (List.not_mem_nil _)⟩

theorem last_value_append_field {F : Type} (env : Env F) (key : List Char)
    (lines : List (List Char)) (l f0 k v : List Char) (heq : env.strsplit l 3 = [f0, k, v]) :
    last_value env key (lines ++ [l]) = if k = key then some v else last_value env key lines := by
  unfold last_value
  rw [List.foldl_append]
  simp only [List.foldl_cons, List.foldl_nil, heq]

theorem last_value_append_skip {F : Type} (env : Env F) (key : List Char)
    (lines : List (List Char)) (l : List Char)
    (h : ∀ f0 k v, env.strsplit l 3 ≠ [f0, k, v]) :
    last_value env key (lines ++ [l]) = last_value env key lines := by
  unfold last_value
  rw [List.foldl_append]
  show (match env.strsplit l 3 with
    | [_, k, v] => if k = key then some v else last_value env key lines
    | _ => last_value env key lines) = last_value env key lines
  split
  · rename_i f0 k v heq
    exact absurd heq (h f0 k v)
  · rfl

/-- An accumulator that only the lines with key `key` set, to `atof` of their
value, holds at the end `atof` of the last such value, or its initial value. -/
theorem foldl_tracks {F : Type} (env : Env F) (st : memcached_t) (proj : ReadState F → F)
    (key : List Char)
    (hframe : ∀ (s : ReadState F) (line f0 k v : List Char),
      env.strsplit line 3 = [f0, k, v] → ¬ k = key → proj (process_line env st s line) = proj s)
    (hset : ∀ (s : ReadState F) (line f0 v : List Char),
      env.strsplit line 3 = [f0, key, v] → proj (process_line env st s line) = env.atof v)
    (s : ReadState F) (lines : List (List Char)) :
    proj (lines.foldl (process_line env st) s)
      = match last_value env key lines with
        | some v => env.atof v
        | none => proj s := by
  induction lines using List.reverseRecOn with
  | nil => rfl
  | append_singleton ls l ih =>
    rw [List.foldl_append]
    simp only [List.foldl_cons, List.foldl_nil]
    by_cases hsp : ∃ f0 k v, env.strsplit l 3 = [f0, k, v]
    · obtain ⟨f0, k, v, heq⟩ := hsp
      rw [last_value_append_field env key ls l f0 k v heq]
      by_cases hk : k = key
      · subst hk
        rw [if_pos rfl, hset _ _ _ _ heq]
      · rw [if_neg hk, hframe _ _ _ _ _ heq hk, ih]
    · have hne : ∀ f0 k v, env.strsplit l 3 ≠ [f0, k, v] :=
        fun f0 k v h => hsp ⟨f0, k, v, h⟩
      rw [last_value_append_skip env key ls l hne, process_line_skip env st _ l hne, ih]

theorem foldl_dispatched {F : Type} (env : Env F) (st : memcached_t)
    (hlen : 22 ≤ env.DATA_MAX_NAME_LEN) (s : ReadState F) (lines : List (List Char)) :
    ∃ extra, (lines.foldl (process_line env st) s).dispatched = s.dispatched ++ extra ∧
      ∀ r ∈ extra, r.type ∈ line_types := by
  induction lines using List.reverseRecOn with
  | nil => exact ⟨[], (List.append_nil _).symm, fun _ h => absurd h (List.not_mem_nil _)⟩
  | append_singleton ls l ih =>
    obtain ⟨e1, h1, t1⟩ := ih
    obtain ⟨e2, h2, t2⟩ := process_line_dispatched env st (ls.foldl (process_line env st) s) l hlen
    refine ⟨e1 ++ e2, ?_, ?_⟩
    · rw [List.foldl_append]
      simp only [List.foldl_cons, List.foldl_nil]
      rw [h2, h1, List.append_assoc]
    · intro r hr
      rcases List.mem_append.mp hr with h | h
      · exact t1 r h
      · exact t2 r h

theorem records_of_type_line_loop {F : Type} (env : Env F) (st : memcached_t)
    (hlen : 22 ≤ env.DATA_MAX_NAME_LEN) (type : String) (htype : type.toList ∉ line_types)
    (lines : List (List Char)) :
    records_of_type type (lines.foldl (process_line env st) (ReadState.init env)).dispatched
      = [] := by
  obtain ⟨extra, h1, h2⟩ := foldl_dispatched env st hlen (ReadState.init env) lines
  rw [h1]
  unfold records_of_type
  rw [List.filter_eq_nil_iff]
  intro r hr
  simp only [ReadState.init, List.nil_append] at hr
  have := h2 r hr
  simp only [decide_eq_true_eq]
  intro h
  rw [h] at this
  exact htype this

theorem records_of_type_derived_df {F : Type} (env : Env F) (st : memcached_t)
    (hlen : 22 ≤ env.DATA_MAX_NAME_LEN) (s : ReadState F) :
    records_of_type "df" (derived env st s)
      = if !env.isnan s.bytes_used && !env.isnan s.bytes_total
            && env.le s.bytes_used s.bytes_total
        then [submit_gauge2 env "df" (some "cache".toList) s.bytes_used
                (env.sub s.bytes_total s.bytes_used) st]
        else [] := by
  have t1 : ∀ ti (vals : List (value_t F)), (submit env "df" ti vals st).type = "df".toList :=
    fun ti vals => submit_type env _ ti vals st (by simp; omega)
  have t2 : ∀ ti (vals : List (value_t F)),
      (submit env "ps_cputime" ti vals st).type = "ps_cputime".toList :=
    fun ti vals => submit_type env _ ti vals st (by simp; omega)
  have t3 : ∀ ti (vals : List (value_t F)),
      (submit env "memcached_octets" ti vals st).type = "memcached_octets".toList :=
    fun ti vals => submit_type env _ ti vals st (by simp; omega)
  have t4 : ∀ ti (vals : List (value_t F)),
      (submit env "percent" ti vals st).type = "percent".toList :=
    fun ti vals => submit_type env _ ti vals st (by simp; omega)
  unfold derived records_of_type
  simp only [List.filter_append]
  have f2 : List.filter (fun r => decide (r.type = "df".toList))
      (if s.rusage_user ≠ 0 ∨ s.rusage_syst ≠ 0
        then [submit_derive2 env "ps_cputime" none s.rusage_user s.rusage_syst st]
        else []) = [] := by
    split <;> simp [submit_derive2, t2, List.filter_cons]
  have f3 : List.filter (fun r => decide (r.type = "df".toList))
      (if s.octets_rx ≠ 0 ∨ s.octets_tx ≠ 0
        then [submit_derive2 env "memcached_octets" none s.octets_rx s.octets_tx st]
        else []) = [] := by
    split <;> simp [submit_derive2, t3, List.filter_cons]
  have f4 : List.filter (fun r => decide (r.type = "df".toList))
      (if (!env.isnan s.gets && !env.isnan s.hits) = true
        then [submit_gauge env "percent" (some "hitratio".toList)
          (if env.ne_zero s.gets = true then env.div (env.mul_100 s.hits) s.gets else env.NAN) st]
        else []) = [] := by
    split <;> simp [submit_gauge, t4, List.filter_cons]
  rw [f2, f3, f4]
  split <;> simp [submit_gauge2, t1, List.filter_cons]

theorem records_of_type_derived_percent {F : Type} (env : Env F) (st : memcached_t)
    (hlen : 22 ≤ env.DATA_MAX_NAME_LEN) (s : ReadState F) :
    records_of_type "percent" (derived env st s)
      = if !env.isnan s.gets && !env.isnan s.hits
        then [submit_gauge env "percent" (some "hitratio".toList)
          (if env.ne_zero s.gets then env.div (env.mul_100 s.hits) s.gets else env.NAN) st]
        else [] := by
  have t1 : ∀ ti (vals : List (value_t F)), (submit env "df" ti vals st).type = "df".toList :=
    fun ti vals => submit_type env _ ti vals st (by simp; omega)
  have t2 : ∀ ti (vals : List (value_t F)),
      (submit env "ps_cputime" ti vals st).type = "ps_cputime".toList :=
    fun ti vals => submit_type env _ ti vals st (by simp; omega)
  have t3 : ∀ ti (vals : List (value_t F)),
      (submit env "memcached_octets" ti vals st).type = "memcached_octets".toList :=
    fun ti vals => submit_type env _ ti vals st (by simp; omega)
  have t4 : ∀ ti (vals : List (value_t F)),
      (submit env "percent" ti vals st).type = "percent".toList :=
    fun ti vals => submit_type env _ ti vals st (by simp; omega)
  unfold derived records_of_type
  simp only [List.filter_append]
  have f1 : List.filter (fun r => decide (r.type = "percent".toList))
      (if (!env.isnan s.bytes_used && !env.isnan s.bytes_total
            && env.le s.bytes_used s.bytes_total) = true
        then [submit_gauge2 env "df" (some "cache".toList) s.bytes_used
                (env.sub s.bytes_total s.bytes_used) st]
        else []) = [] := by
    split <;> simp [submit_gauge2, t1, List.filter_cons]
  have f2 : List.filter (fun r => decide (r.type = "percent".toList))
      (if s.rusage_user ≠ 0 ∨ s.rusage_syst ≠ 0
        then [submit_derive2 env "ps_cputime" none s.rusage_user s.rusage_syst st]
        else []) = [] := by
    split <;> simp [submit_derive2, t2, List.filter_cons]
  have f3 : List.filter (fun r => decide (r.type = "percent".toList))
      (if s.octets_rx ≠ 0 ∨ s.octets_tx ≠ 0
        then [submit_derive2 env "memcached_octets" none s.octets_rx s.octets_tx st]
        else []) = [] := by
    split <;> simp [submit_derive2, t3, List.filter_cons]
  rw [f1, f2, f3]
  split <;> simp [submit_gauge, t4, List.filter_cons]

theorem parse_stats_records_of_type {F : Type} (env : Env F) (st : memcached_t)
    (mem : List Char) (hlen : 22 ≤ env.DATA_MAX_NAME_LEN) (type : String)
    (htype : type.toList ∉ line_types) :
    records_of_type type (parse_stats env st mem).2
      = records_of_type type
          (derived env st ((stat_lines mem).foldl (process_line env st) (ReadState.init env))) := by
  have h := records_of_type_line_loop env st hlen type htype (stat_lines mem)
  unfold records_of_type at h ⊢
  unfold parse_stats
  simp only [List.filter_append]
  unfold stat_lines at h ⊢
  rw [h, List.nil_append]

/-- The records of type `df`, for every `Env` in which NaN is a NaN and compares false. -/
theorem df_record_spec {F : Type} (env : Env F) (st : memcached_t) (mem : List Char)
    (hlen : 22 ≤ env.DATA_MAX_NAME_LEN)
    (hnan : env.isnan env.NAN = true)
    (hle : ∀ x y, env.le x y = true → env.isnan x = false ∧ env.isnan y = false) :
    records_of_type "df" (parse_stats env st mem).2
      = match last_value env "bytes".toList (stat_lines mem),
            last_value env "limit_maxbytes".toList (stat_lines mem) with
        | some u, some t =>
          if env.le (env.atof u) (env.atof t) then
            [submit_gauge2 env "df" (some "cache".toList) (env.atof u)
              (env.sub (env.atof t) (env.atof u)) st]
          else []
        | _, _ => [] := by
  rw [parse_stats_records_of_type env st mem hlen "df" (by decide),
    records_of_type_derived_df env st hlen]
  have hu := foldl_tracks env st (fun s => s.bytes_used) "bytes".toList
    (fun s line f0 k v heq hk => process_line_frame_bytes_used env st s line f0 k v heq hk)
    (fun s line f0 v heq => process_line_set_bytes_used env st s line f0 v heq)
    (ReadState.init env) (stat_lines mem)
  have ht := foldl_tracks env st (fun s => s.bytes_total) "limit_maxbytes".toList
    (fun s line f0 k v heq hk => process_line_frame_bytes_total env st s line f0 k v heq hk)
    (fun s line f0 v heq => process_line_set_bytes_total env st s line f0 v heq)
    (ReadState.init env) (stat_lines mem)
  simp only at hu ht
  rw [hu, ht]
  cases h1 : last_value env "bytes".toList (stat_lines mem) with
  | none => simp [ReadState.init, hnan]
  | some u =>
    cases h2 : last_value env "limit_maxbytes".toList (stat_lines mem) with
    | none => simp [ReadState.init, hnan]
    | some t =>
      simp only
      by_cases hc : env.le (env.atof u) (env.atof t) = true
      · obtain ⟨n1, n2⟩ := hle _ _ hc
        simp [hc, n1, n2]
      · simp [hc]

/-- The records of type `percent`, for every `Env` in which NaN is a NaN. -/
theorem hitratio_record_spec {F : Type} (env : Env F) (st : memcached_t) (mem : List Char)
    (hlen : 22 ≤ env.DATA_MAX_NAME_LEN)
    (hnan : env.isnan env.NAN = true) :
    records_of_type "percent" (parse_stats env st mem).2
      = match last_value env "cmd_get".toList (stat_lines mem),
            last_value env "get_hits".toList (stat_lines mem) with
        | some g, some h =>
          if env.isnan (env.atof g) || env.isnan (env.atof h) then []
          else
            [submit_gauge env "percent" (some "hitratio".toList)
              (if env.ne_zero (env.atof g) then env.div (env.mul_100 (env.atof h)) (env.atof g)
               else env.NAN) st]
        | _, _ => [] := by
  rw [parse_stats_records_of_type env st mem hlen "percent" (by decide),
    records_of_type_derived_percent env st hlen]
  have hg := foldl_tracks env st (fun s => s.gets) "cmd_get".toList
    (fun s line f0 k v heq hk => process_line_frame_gets env st s line f0 k v heq hk)
    (fun s line f0 v heq => process_line_set_gets env st s line f0 v heq)
    (ReadState.init env) (stat_lines mem)
  have hh := foldl_tracks env st (fun s => s.hits) "get_hits".toList
    (fun s line f0 k v heq hk => process_line_frame_hits env st s line f0 k v heq hk)
    (fun s line f0 v heq => process_line_set_hits env st s line f0 v heq)
    (ReadState.init env) (stat_lines mem)
  simp only at hg hh
  rw [hg, hh]
  cases h1 : last_value env "cmd_get".toList (stat_lines mem) with
  | none => simp [ReadState.init, hnan]
  | some g =>
    cases h2 : last_value env "get_hits".toList (stat_lines mem) with
    | none => simp [ReadState.init, hnan]
    | some h =>
      simp only
      cases env.isnan (env.atof g) <;> cases env.isnan (env.atof h) <;> simp

/-! ## Integers below `2^53` are exact in binary64 -/

namespace Double

theorem log2_fuel_spec : ∀ (fuel n : Nat), 0 < n → n ≤ fuel →
    2 ^ log2_fuel fuel n ≤ n ∧ n < 2 ^ (log2_fuel fuel n + 1) := by
  intro fuel
  induction fuel with
  | zero => intro n h0 h1; omega
  | succ f ih =>
    intro n h0 h1
    unfold log2_fuel
    split_ifs with h2
    · have : n = 1 := by omega
      subst this
      simp
    · have h3 := ih (n / 2) (by omega) (by omega)
      rw [Nat.pow_succ, Nat.pow_succ]
      omega

theorem log2_spec (n : Nat) (h : 0 < n) : 2 ^ log2 n ≤ n ∧ n < 2 ^ (log2 n + 1) :=
  log2_fuel_spec n n h (Nat.le_refl n)

theorem log2_unique (n a b : Nat) (h1 : 2 ^ a ≤ n) (h2 : n < 2 ^ (a + 1)) (h3 : 2 ^ b ≤ n)
    (h4 : n < 2 ^ (b + 1)) : a = b := by
  by_contra hne
  rcases Nat.lt_or_gt_of_ne hne with h | h
  · have : 2 ^ (a + 1) ≤ 2 ^ b := Nat.pow_le_pow_right (by decide) h
    omega
  · have : 2 ^ (b + 1) ≤ 2 ^ a := Nat.pow_le_pow_right (by decide) h
    omega

theorem log2_mul_pow (n j : Nat) (h : 0 < n) : log2 (n * 2 ^ j) = log2 n + j := by
  have hj : 0 < 2 ^ j := Nat.pow_pos (by decide)
  obtain ⟨a1, a2⟩ := log2_spec n h
  obtain ⟨b1, b2⟩ := log2_spec (n * 2 ^ j) (Nat.mul_pos h hj)
  apply log2_unique (n * 2 ^ j) _ _ b1 b2
  · rw [Nat.pow_add]
    exact Nat.mul_le_mul_right _ a1
  · rw [show log2 n + j + 1 = (log2 n + 1) + j by omega, Nat.pow_add]
    exact Nat.mul_lt_mul_of_pos_right a2 hj

theorem log2_pow (j : Nat) : log2 (2 ^ j) = j := by
  have := log2_mul_pow 1 j (by decide)
  have h1 : log2 1 = 0 := by decide
  rw [Nat.one_mul, h1, Nat.zero_add] at this
  exact this

theorem log2_lt_53 (n : Nat) (h0 : 0 < n) (h : n < 2 ^ 53) : log2 n ≤ 52 := by
  by_contra hc
  have h1 : 2 ^ 53 ≤ 2 ^ log2 n := Nat.pow_le_pow_right (by decide) (by omega)
  have := (log2_spec n h0).1
  omega

theorem floor_log2_scaled (n j : Nat) (h : 0 < n) :
    floor_log2 (n * 2 ^ j) (2 ^ j) = (log2 n : Int) := by
  unfold floor_log2
  rw [log2_mul_pow n j h, log2_pow]
  have hk : ((log2 n + j : Nat) : Int) - (j : Int) = (log2 n : Int) := by omega
  simp only [hk]
  rw [if_pos (by omega), Int.toNat_ofNat, if_pos]
  rw [Nat.mul_comm]
  exact Nat.mul_le_mul_right _ (log2_spec n h).1

/-- The fraction `n * c / c`, for `0 < n < 2^53` and `c` a power of two, rounds to `n`. -/
theorem round_scaled (n j : Nat) (h0 : 0 < n) (h : n < 2 ^ 53) :
    round false (n * 2 ^ j) (2 ^ j)
      = fin false (n * 2 ^ (52 - log2 n)) (-((52 - log2 n : Nat) : Int)) := by
  have hj : 0 < 2 ^ j := Nat.pow_pos (by decide)
  have hk := log2_lt_53 n h0 h
  obtain ⟨s1, s2⟩ := log2_spec n h0
  have hn : ¬ n * 2 ^ j = 0 := Nat.ne_of_gt (Nat.mul_pos h0 hj)
  have he : max ((log2 n : Int) - 52) (-1074) = -((52 - log2 n : Nat) : Int) := by
    rw [max_eq_left (by omega)]
    omega
  -- the rounded significand stays below 2^53
  have hq : n * 2 ^ (52 - log2 n) < 2 ^ 53 := by
    have : 2 ^ 53 = 2 ^ (log2 n + 1) * 2 ^ (52 - log2 n) := by
      rw [← Nat.pow_add]
      congr 1
      omega
    rw [this]
    exact Nat.mul_lt_mul_of_pos_right s2 (Nat.pow_pos (by decide))
  unfold round
  rw [if_neg hn]
  simp only [floor_log2_scaled n j h0, he]
  by_cases hz : 52 - log2 n = 0
  · have e0 : (0 : Int) ≤ -((52 - log2 n : Nat) : Int) := by omega
    have t0 : (-((52 - log2 n : Nat) : Int)).toNat = 0 := by omega
    simp only [e0, if_true, t0, Nat.pow_zero, Nat.mul_one]
    rw [Nat.mul_div_cancel _ hj, Nat.mul_mod_left]
    have c1 : ¬ (2 ^ j < 2 * 0 ∨ 2 * 0 = 2 ^ j ∧ n % 2 = 1) := by omega
    have c2 : ¬ n = 2 ^ 53 := by omega
    have c3 : ¬ (971 : Int) < -((52 - log2 n : Nat) : Int) := by omega
    simp only [c1, c2, c3, if_false]
    rw [hz, Nat.pow_zero, Nat.mul_one]
  · have e0 : ¬ (0 : Int) ≤ -((52 - log2 n : Nat) : Int) := by omega
    have t0 : (-(-((52 - log2 n : Nat) : Int))).toNat = 52 - log2 n := by omega
    simp only [e0, if_false, t0]
    have hN : n * 2 ^ j * 2 ^ (52 - log2 n) = n * 2 ^ (52 - log2 n) * 2 ^ j := by
      rw [Nat.mul_assoc, Nat.mul_comm (2 ^ j), ← Nat.mul_assoc]
    rw [hN, Nat.mul_div_cancel _ hj, Nat.mul_mod_left]
    have c1 : ¬ (2 ^ j < 2 * 0 ∨ 2 * 0 = 2 ^ j ∧ n * 2 ^ (52 - log2 n) % 2 = 1) := by omega
    have c2 : ¬ n * 2 ^ (52 - log2 n) = 2 ^ 53 := by omega
    have c3 : ¬ (971 : Int) < -((52 - log2 n : Nat) : Int) := by omega
    simp only [c1, c2, c3, if_false]

theorem num_neg_cast (m a : Nat) : num m (-(a : Int)) = m := by
  unfold num
  by_cases ha : a = 0
  · subst ha
    simp
  · rw [if_neg (by omega)]

theorem den_neg_cast (a : Nat) : den (-(a : Int)) = 2 ^ a := by
  unfold den
  by_cases ha : a = 0
  · subst ha
    simp
  · rw [if_neg (by omega)]
    congr 1
    omega

/-- Every natural number below `2^53` is a double: `ofNat n` is `n * 2^a * 2^(-a)`. -/
theorem ofNat_repr (n : Nat) (h : n < 2 ^ 53) :
    ∃ a : Nat, ofNat n = fin false (n * 2 ^ a) (-(a : Int)) := by
  by_cases h0 : n = 0
  · subst h0
    exact ⟨1074, by decide!⟩
  · refine ⟨52 - log2 n, ?_⟩
    have := round_scaled n 0 (by omega) h
    rw [Nat.pow_zero, Nat.mul_one] at this
    exact this

theorem sub_repr (t u a1 a2 : Nat) (hle : u ≤ t) :
    sub (fin false (t * 2 ^ a1) (-(a1 : Int))) (fin false (u * 2 ^ a2) (-(a2 : Int)))
      = if t = u then fin false 0 (-1074)
        else round false ((t - u) * 2 ^ (a1 + a2)) (2 ^ (a1 + a2)) := by
  unfold sub
  simp only [num_neg_cast, den_neg_cast, sgn, Bool.false_eq_true, if_false, Int.one_mul]
  have h1 : t * 2 ^ a1 * 2 ^ a2 = t * 2 ^ (a1 + a2) := by rw [Nat.mul_assoc, ← Nat.pow_add]
  have h2 : u * 2 ^ a2 * 2 ^ a1 = u * 2 ^ (a1 + a2) := by
    rw [Nat.mul_assoc, ← Nat.pow_add, Nat.add_comm]
  have hP : 0 < 2 ^ (a1 + a2) := Nat.pow_pos (by decide)
  have hz : ((t * 2 ^ a1 : Nat) : Int) * ((2 ^ a2 : Nat) : Int)
        - ((u * 2 ^ a2 : Nat) : Int) * ((2 ^ a1 : Nat) : Int)
      = (((t - u) * 2 ^ (a1 + a2) : Nat) : Int) := by
    rw [← Nat.cast_mul, ← Nat.cast_mul, h1, h2, Nat.sub_mul]
    have : u * 2 ^ (a1 + a2) ≤ t * 2 ^ (a1 + a2) := Nat.mul_le_mul_right _ hle
    omega
  rw [hz]
  by_cases htu : t = u
  · subst htu
    simp
  · have hpos : 0 < (t - u) * 2 ^ (a1 + a2) := Nat.mul_pos (by omega) hP
    rw [if_neg (by omega), if_neg htu]
    have hd : decide ((((t - u) * 2 ^ (a1 + a2) : Nat) : Int) < 0) = false := by
      simp only [decide_eq_false_iff_not]
      omega
    rw [hd, Int.natAbs_ofNat, ← Nat.pow_add]

/-- Subtraction of integers below `2^53` is exact. -/
theorem sub_ofNat (t u : Nat) (hle : u ≤ t) (ht : t < 2 ^ 53) :
    sub (ofNat t) (ofNat u) = ofNat (t - u) := by
  obtain ⟨a1, h1⟩ := ofNat_repr t ht
  obtain ⟨a2, h2⟩ := ofNat_repr u (by omega)
  rw [h1, h2, sub_repr t u a1 a2 hle]
  by_cases htu : t = u
  · subst htu
    rw [if_pos rfl, Nat.sub_self]
    decide!
  · rw [if_neg htu, round_scaled (t - u) (a1 + a2) (by omega) (by omega)]
    have := round_scaled (t - u) 0 (by omega) (by omega)
    rw [Nat.pow_zero, Nat.mul_one] at this
    exact this.symm

theorem add_repr (a b a1 a2 : Nat) :
    add (fin false (a * 2 ^ a1) (-(a1 : Int))) (fin false (b * 2 ^ a2) (-(a2 : Int)))
      = if a + b = 0 then fin false 0 (-1074)
        else round false ((a + b) * 2 ^ (a1 + a2)) (2 ^ (a1 + a2)) := by
  unfold add neg sub
  simp only [num_neg_cast, den_neg_cast, sgn, Bool.false_eq_true, if_false, if_true, Int.one_mul,
    Bool.not_false, Bool.not_true]
  have h1 : a * 2 ^ a1 * 2 ^ a2 = a * 2 ^ (a1 + a2) := by rw [Nat.mul_assoc, ← Nat.pow_add]
  have h2 : b * 2 ^ a2 * 2 ^ a1 = b * 2 ^ (a1 + a2) := by
    rw [Nat.mul_assoc, ← Nat.pow_add, Nat.add_comm]
  have hP : 0 < 2 ^ (a1 + a2) := Nat.pow_pos (by decide)
  have hz : ((a * 2 ^ a1 : Nat) : Int) * ((2 ^ a2 : Nat) : Int)
        - -1 * (((b * 2 ^ a2 : Nat) : Int) * ((2 ^ a1 : Nat) : Int))
      = (((a + b) * 2 ^ (a1 + a2) : Nat) : Int) := by
    rw [← Nat.cast_mul, ← Nat.cast_mul, h1, h2, Nat.add_mul]
    omega
  rw [hz]
  by_cases hab : a + b = 0
  · have ha : a = 0 := by omega
    have hb : b = 0 := by omega
    subst ha hb
    simp
  · have hpos : 0 < (a + b) * 2 ^ (a1 + a2) := Nat.mul_pos (by omega) hP
    rw [if_neg (by omega), if_neg hab]
    have hd : decide ((((a + b) * 2 ^ (a1 + a2) : Nat) : Int) < 0) = false := by
      simp only [decide_eq_false_iff_not]
      omega
    rw [hd, Int.natAbs_ofNat, ← Nat.pow_add]

/-- Addition of integers with a sum below `2^53` is exact. -/
theorem add_ofNat (a b : Nat) (h : a + b < 2 ^ 53) :
    add (ofNat a) (ofNat b) = ofNat (a + b) := by
  obtain ⟨a1, h1⟩ := ofNat_repr a (by omega)
  obtain ⟨a2, h2⟩ := ofNat_repr b (by omega)
  rw [h1, h2, add_repr a b a1 a2]
  by_cases hab : a + b = 0
  · rw [if_pos hab, hab]
    decide!
  · rw [if_neg hab, round_scaled (a + b) (a1 + a2) (by omega) h]
    have := round_scaled (a + b) 0 (by omega) h
    rw [Nat.pow_zero, Nat.mul_one] at this
    exact this.symm

/-- For integers `used ≤ total < 2^53` the values `used` and `total - used`
sum to `total`. -/
theorem sum_ofNat (u t : Nat) (hle : u ≤ t) (ht : t < 2 ^ 53) :
    sub (ofNat t) (ofNat u) = ofNat (t - u) ∧
    add (ofNat u) (sub (ofNat t) (ofNat u)) = ofNat t := by
  refine ⟨sub_ofNat t u hle ht, ?_⟩
  rw [sub_ofNat t u hle ht, add_ofNat u (t - u) (by omega)]
  congr 1
  omega

end Double

theorem Double.le_not_nan (x y : Double) (h : Double.le x y = true) :
    Double.isnan x = false ∧ Double.isnan y = false := by
  cases x <;> cases y <;> simp_all [Double.le, Double.isnan]

theorem hitratio_examples :
    records_of_type "percent" (memcached_read sample_env sample_instance
        (sample_world [RecvOutcome.data
          "STAT cmd_get 200\r\nSTAT get_hits 50\r\nEND\r\n".toList])).dispatched
      = [submit_gauge sample_env "percent" (some "hitratio".toList) (Double.ofNat 25)
          sample_instance] ∧
    records_of_type "percent" (memcached_read sample_env sample_instance
        (sample_world [RecvOutcome.data
          "STAT cmd_get 0\r\nSTAT get_hits 0\r\nEND\r\n".toList])).dispatched
      = [submit_gauge sample_env "percent" (some "hitratio".toList) Double.nan
          sample_instance] := by
  decide!

/-! ## C1 -/

/-- C1 (amended): for every text in `buf`, `memcached_read` dispatches the
two-value gauge record `df`/`cache` exactly when a `bytes` line and a
`limit_maxbytes` line were read and `used <= total` holds for the doubles
`atof` makes of the values of the last such lines; the record is then the only
one of type `df` and its values are `used` and the double `total - used`, so
that the first value is `used`. When a line is missing or `used <= total` is
false, no record of type `df` is dispatched. In binary64 arithmetic, when
`used` and `total` are integers with `used ≤ total < 2^53`, the second value is
exactly `total - used` and the two values sum to `total`. -/
theorem space_usage_record {F : Type} (env : Env F) (st : memcached_t) (mem : List Char)
    (hlen : 22 ≤ env.DATA_MAX_NAME_LEN)
    (hnan : env.isnan env.NAN = true)
    (hle : ∀ x y, env.le x y = true → env.isnan x = false ∧ env.isnan y = false) :
    records_of_type "df" (parse_stats env st mem).2
      = (match last_value env "bytes".toList (stat_lines mem),
            last_value env "limit_maxbytes".toList (stat_lines mem) with
        | some u, some t =>
          if env.le (env.atof u) (env.atof t) then
            [submit_gauge2 env "df" (some "cache".toList) (env.atof u)
              (env.sub (env.atof t) (env.atof u)) st]
          else []
        | _, _ => []) ∧
    ∀ used total : Nat, used ≤ total → total < 2 ^ 53 →
      Double.sub (Double.ofNat total) (Double.ofNat used) = Double.ofNat (total - used) ∧
      Double.add (Double.ofNat used) (Double.sub (Double.ofNat total) (Double.ofNat used))
        = Double.ofNat total :=
  ⟨df_record_spec env st mem hlen hnan hle, Double.sum_ofNat⟩

/-- C1 (witness): binary64 arithmetic and a response with `bytes 10` and
`limit_maxbytes 64`. -/
theorem space_usage_record_witness :
    22 ≤ sample_env.DATA_MAX_NAME_LEN ∧
    sample_env.isnan sample_env.NAN = true ∧
    records_of_type "df" (parse_stats sample_env sample_instance
        "STAT bytes 10\r\nSTAT limit_maxbytes 64\r\nEND\r\n".toList).2
      = [submit_gauge2 sample_env "df" (some "cache".toList) (Double.ofNat 10)
          (Double.ofNat 54) sample_instance] :=
  ⟨by decide, rfl,
    ((space_usage_record sample_env sample_instance
      "STAT bytes 10\r\nSTAT limit_maxbytes 64\r\nEND\r\n".toList (by decide) rfl
      Double.le_not_nan).1).trans (by decide!)⟩

/-- C1 (counterexample): with `bytes 1` and `limit_maxbytes 18014398509481982`
(both exact as doubles) the difference 18014398509481981 is not a double and
rounds to 18014398509481980: the record holds 1 and 18014398509481980, whose
sum, in double arithmetic as in exact arithmetic, is not 18014398509481982. -/
theorem space_usage_sum_counterexample :
    records_of_type "df" (parse_stats sample_env sample_instance
        "STAT bytes 1\r\nSTAT limit_maxbytes 18014398509481982\r\nEND\r\n".toList).2
      = [submit_gauge2 sample_env "df" (some "cache".toList) (Double.ofNat 1)
          (Double.ofNat 18014398509481980) sample_instance] ∧
    Double.ofNat 18014398509481980 = Double.fin false 9007199254740990 1 ∧
    Double.ofNat 18014398509481982 = Double.fin false 9007199254740991 1 ∧
    Double.add (Double.ofNat 1) (Double.ofNat 18014398509481980)
      ≠ Double.ofNat 18014398509481982 := by
  decide!

/-! ## C2 -/

/-- C2 (amended): when `memcached_query_daemon` fails, `memcached_read`
dispatches nothing. When it succeeds, `memcached_read` dispatches exactly one
record of type `percent`, the single-value gauge `percent`/`hitratio`, if the
line loop reads a `cmd_get` line and a `get_hits` line from `buf` and `atof`
makes a NaN of neither value (of the last such lines); its value is
`100.0 * hits / gets` when `gets != 0.0` and NaN when not. When a line is not
read from `buf`, or a value is a NaN, no record of type `percent` is
dispatched. For a response that is received whole the lines read from `buf`
are the lines of the response. In binary64 arithmetic the response with
`cmd_get 200`, `get_hits 50` gives 25.0 and the one with `cmd_get 0`,
`get_hits 0` gives NaN. -/
theorem hit_ratio_record {F : Type} (env : Env F) (st : memcached_t) (w : World)
    (hlen : 22 ≤ env.DATA_MAX_NAME_LEN)
    (hnan : env.isnan env.NAN = true) :
    ((memcached_query_daemon w.buf0 4096 st w).ret < 0 →
      (memcached_read env st w).dispatched = []) ∧
    (0 ≤ (memcached_query_daemon w.buf0 4096 st w).ret →
      records_of_type "percent" (memcached_read env st w).dispatched
        = (match last_value env "cmd_get".toList
              (stat_lines ((memcached_query_daemon w.buf0 4096 st w).buffer ++ w.beyond)),
            last_value env "get_hits".toList
              (stat_lines ((memcached_query_daemon w.buf0 4096 st w).buffer ++ w.beyond)) with
        | some g, some h =>
          if env.isnan (env.atof g) || env.isnan (env.atof h) then []
          else
            [submit_gauge env "percent" (some "hitratio".toList)
              (if env.ne_zero (env.atof g) then env.div (env.mul_100 (env.atof h)) (env.atof g)
               else env.NAN) st]
        | _, _ => [])) ∧
    (∀ (fd : Int) (tr : List Event) (resp : List Char),
      open_socket st w = (some fd, tr) → 0 ≤ fd → w.send = 7 → 0 < w.poll →
      receives w.pre 4096 w.recvs resp →
      (memcached_read env st w).ret = 0 ∧
      records_of_type "percent" (memcached_read env st w).dispatched
        = (match last_value env "cmd_get".toList (stat_lines resp),
            last_value env "get_hits".toList (stat_lines resp) with
        | some g, some h =>
          if env.isnan (env.atof g) || env.isnan (env.atof h) then []
          else
            [submit_gauge env "percent" (some "hitratio".toList)
              (if env.ne_zero (env.atof g) then env.div (env.mul_100 (env.atof h)) (env.atof g)
               else env.NAN) st]
        | _, _ => [])) ∧
    records_of_type "percent" (memcached_read sample_env sample_instance
        (sample_world [RecvOutcome.data
          "STAT cmd_get 200\r\nSTAT get_hits 50\r\nEND\r\n".toList])).dispatched
      = [submit_gauge sample_env "percent" (some "hitratio".toList) (Double.ofNat 25)
          sample_instance] ∧
    records_of_type "percent" (memcached_read sample_env sample_instance
        (sample_world [RecvOutcome.data
          "STAT cmd_get 0\r\nSTAT get_hits 0\r\nEND\r\n".toList])).dispatched
      = [submit_gauge sample_env "percent" (some "hitratio".toList) Double.nan
          sample_instance] := by
  refine ⟨fun h => ((memcached_read_eq env st w).1 h).2, fun h => ?_, ?_, hitratio_examples⟩
  · rw [((memcached_read_eq env st w).2 h).2]
    exact hitratio_record_spec env st _ hlen hnan
  · intro fd tr resp hopen hfd hsend hpoll hrecv
    obtain ⟨r, d⟩ := memcached_read_receives env st w fd tr resp hopen hfd hsend hpoll hrecv
    rw [d]
    exact ⟨r, hitratio_record_spec env st resp hlen hnan⟩

/-- C2 (witness): binary64 arithmetic and a response with `cmd_get 8` and
`get_hits 2`, received in one read. -/
theorem hit_ratio_record_witness :
    22 ≤ sample_env.DATA_MAX_NAME_LEN ∧
    sample_env.isnan sample_env.NAN = true ∧
    records_of_type "percent" (memcached_read sample_env sample_instance
        (sample_world [RecvOutcome.data
          "STAT cmd_get 8\r\nSTAT get_hits 2\r\nEND\r\n".toList])).dispatched
      = [submit_gauge sample_env "percent" (some "hitratio".toList) (Double.ofNat 25)
          sample_instance] :=
  ⟨by decide, rfl,
    (((hit_ratio_record sample_env sample_instance
      (sample_world [RecvOutcome.data "STAT cmd_get 8\r\nSTAT get_hits 2\r\nEND\r\n".toList])
      (by decide) rfl).2.2.1 3
      [Event.getaddrinfo "127.0.0.1" "11211", Event.socket 3, Event.connect 3 0,
        Event.freeaddrinfo]
      "STAT cmd_get 8\r\nSTAT get_hits 2\r\nEND\r\n".toList
      (by rfl) (by decide) (by decide) (by decide)
      ⟨[_], [], rfl, rfl, by decide, by decide, by decide, by decide,
        fun k h0 h1 => absurd h1 (by simp only [List.length_singleton]; omega),
        Or.inl (by decide)⟩).2).trans (by decide!)⟩

/-- C2 (counterexample): the response is received whole, a `cmd_get` line and a
`get_hits` line occur in it, the value of the first is the text `nan`, which
`atof` turns into a NaN, and `memcached_read` returns 0 without dispatching a
record of type `percent`. -/
theorem hit_ratio_counterexample :
    last_value sample_env "cmd_get".toList
      (stat_lines "STAT cmd_get nan\r\nSTAT get_hits 5\r\nEND\r\n".toList) = some "nan".toList ∧
    last_value sample_env "get_hits".toList
      (stat_lines "STAT cmd_get nan\r\nSTAT get_hits 5\r\nEND\r\n".toList) = some "5".toList ∧
    (memcached_query_daemon [] 4096 sample_instance
      (sample_world [RecvOutcome.data
        "STAT cmd_get nan\r\nSTAT get_hits 5\r\nEND\r\n".toList])).buffer
      = "STAT cmd_get nan\r\nSTAT get_hits 5\r\nEND\r\n".toList ++ List.replicate 4056 NUL ∧
    (memcached_read sample_env sample_instance
      (sample_world [RecvOutcome.data
        "STAT cmd_get nan\r\nSTAT get_hits 5\r\nEND\r\n".toList])).ret = 0 ∧
    (memcached_read sample_env sample_instance
      (sample_world [RecvOutcome.data
        "STAT cmd_get nan\r\nSTAT get_hits 5\r\nEND\r\n".toList])).dispatched
      = [submit_derive sample_env "memcached_command" (some "get".toList) 0 sample_instance,
         submit_derive sample_env "memcached_ops" (some "hits".toList) 5 sample_instance] ∧
    records_of_type "percent" (memcached_read sample_env sample_instance
      (sample_world [RecvOutcome.data
        "STAT cmd_get nan\r\nSTAT get_hits 5\r\nEND\r\n".toList])).dispatched = [] := by
  decide!

/-! ## C3 -/

/-- C3 (the code at the failing input): for an instance with no socket path and
no port, whatever its name and host and whatever the world,
`memcached_query_daemon` calls neither `getaddrinfo` nor `socket`: it logs
`Could not connect to daemon.` and returns -1. -/
theorem no_port_never_resolves (buffer : List Char) (buffer_size : Nat)
    (name host : Option String) (w : World) :
    memcached_query_daemon buffer buffer_size ⟨name, none, host, none⟩ w
      = ⟨-1, buffer, [Event.ERROR "memcached: Could not connect to daemon."]⟩ :=
  rfl

/-! ## C4 -/

/-- C4 (the code at the failing input): the socket is opened and connected as
descriptor 3, `send` returns -1, and `memcached_query_daemon` returns -1 after
logging the failure: the trace ends there, with no `shutdown` and no `close`
of descriptor 3. -/
theorem send_failure_leaks_socket :
    memcached_query_daemon [] 4096 sample_instance { sample_world [] with send := -1 }
      = ⟨-1, [], [Event.getaddrinfo "127.0.0.1" "11211", Event.socket 3, Event.connect 3 0,
          Event.freeaddrinfo, Event.send 3 (-1),
          Event.ERROR "memcached: Could not send command to the memcached daemon."]⟩ ∧
    Event.close 3 ∉ (memcached_query_daemon [] 4096 sample_instance
      { sample_world [] with send := -1 }).trace := by
  decide!

/-! ## C5 -/

/-- C6 (amended): when at most `MEMCACHED_RETRY_COUNT + 1` successful non-empty
reads deliver exactly `buffer_size` bytes, the END check failing after every
read but the last, and no later `recv` fails, `memcached_query_daemon` returns
0, the buffer holds the received bytes with the last one overwritten by NUL,
and the truncation warning is logged exactly once. -/
theorem truncated_response_accepted (buffer : List Char) (buffer_size : Nat) (st : memcached_t)
    (w : World) (fd : Int) (tr : List Event) (chunks : List (List Char))
    (rest : List RecvOutcome)
    (hsize : 0 < buffer_size)
    (hopen : open_socket st w = (some fd, tr)) (hfd : 0 ≤ fd)
    (hsend : w.send = 7) (hpoll : 0 < w.poll)
    (hrecvs : w.recvs = chunks.map RecvOutcome.data ++ rest)
    (hne : ∀ c ∈ chunks, c ≠ [])
    (hlen : chunks.flatten.length = buffer_size)
    (hcount : chunks.length ≤ MEMCACHED_RETRY_COUNT + 1)
    (hrest : RecvOutcome.fail ∉ rest)
    (hend : ∀ k, 0 < k → k < chunks.length →
      (end_check w.pre (chunks.take k).flatten ((chunks.take k).flatten.length : Int)).1
        = false) :
    (memcached_query_daemon buffer buffer_size st w).ret = 0 ∧
    (memcached_query_daemon buffer buffer_size st w).buffer
      = chunks.flatten.set (buffer_size - 1) NUL ∧
    (memcached_query_daemon buffer buffer_size st w).buffer[buffer_size - 1]? = some NUL ∧
    (memcached_query_daemon buffer buffer_size st w).trace.count
      (Event.WARNING "memcached: Message from memcached has been truncated.") = 1 := by
  have hl := recv_loop_chunks fd w.pre buffer_size rest hrest chunks [] 0 hne
    (by simpa using hlen) (by omega) (by simpa using hend)
  simp only [List.length_nil, Nat.sub_zero, List.nil_append, ← hrecvs] at hl
  obtain ⟨hret, hbuf, hfill⟩ := hl
  have hnw := recv_loop_no_warning fd w.pre buffer_size
    "memcached: Message from memcached has been truncated." w.recvs
    (List.replicate buffer_size NUL) 0 0
  rw [memcached_query_daemon_some _ _ _ _ _ _ hopen,
    query_with_fd_loop buffer buffer_size w fd hfd hsend hpoll hret, hbuf, hfill]
  have hfin : finish fd buffer_size chunks.flatten buffer_size
      = ⟨0, chunks.flatten.set (buffer_size - 1) NUL,
          [Event.WARNING "memcached: Message from memcached has been truncated.",
           Event.shutdown fd, Event.close fd]⟩ := by
    simp [finish]
  rw [hfin]
  refine ⟨rfl, rfl, ?_, ?_⟩
  · show (chunks.flatten.set (buffer_size - 1) NUL)[buffer_size - 1]? = some NUL
    rw [List.getElem?_set_self]
    omega
  · have htr : tr.count (Event.WARNING "memcached: Message from memcached has been truncated.")
        = 0 := by
      rw [List.count_eq_zero]
      intro h
      have := open_socket_events st w
      rw [hopen] at this
      exact (this _ h).2.2 _ rfl
    have hlt := List.count_eq_zero.mpr hnw
    simp only [List.count_append, htr, hlt]
    simp [List.count_cons]

/-- C6 (witness): two reads of 4000 and 96 bytes fill the 4096-byte buffer. -/
theorem truncated_response_accepted_witness :
    (memcached_query_daemon [] 4096 sample_instance
      (sample_world [RecvOutcome.data (List.replicate 4000 'x'),
        RecvOutcome.data (List.replicate 96 'y')])).ret = 0 ∧
    (memcached_query_daemon [] 4096 sample_instance
      (sample_world [RecvOutcome.data (List.replicate 4000 'x'),
        RecvOutcome.data (List.replicate 96 'y')])).buffer
      = [List.replicate 4000 'x', List.replicate 96 'y'].flatten.set (4096 - 1) NUL ∧
    (memcached_query_daemon [] 4096 sample_instance
      (sample_world [RecvOutcome.data (List.replicate 4000 'x'),
        RecvOutcome.data (List.replicate 96 'y')])).buffer[4096 - 1]? = some NUL ∧
    (memcached_query_daemon [] 4096 sample_instance
      (sample_world [RecvOutcome.data (List.replicate 4000 'x'),
        RecvOutcome.data (List.replicate 96 'y')])).trace.count
      (Event.WARNING "memcached: Message from memcached has been truncated.") = 1 :=
  truncated_response_accepted [] 4096 sample_instance
    (sample_world [RecvOutcome.data (List.replicate 4000 'x'),
      RecvOutcome.data (List.replicate 96 'y')])
    3 [Event.getaddrinfo "127.0.0.1" "11211", Event.socket 3, Event.connect 3 0,
      Event.freeaddrinfo]
    [List.replicate 4000 'x', List.replicate 96 'y'] []
    (by decide) (by decide) (by decide) (by decide) (by decide) (by rfl)
    (by decide!) (by decide!) (by decide) (by decide)
    (by
      intro k h0 h1
      have h2 : k < 2 := h1
      have hk : k = 1 := by omega
      subst hk
      decide!)

/-- C6 (counterexample): 4096 successful one-byte reads deliver exactly 4096
bytes, none of them `E`; the query returns 0 without any truncation warning. -/
theorem truncated_response_counterexample :
    ((List.replicate 4096 ['a']).flatten.length = 4096) ∧
    (memcached_query_daemon [] 4096 sample_instance
      (sample_world (List.replicate 4096 (RecvOutcome.data ['a'])))).ret = 0 ∧
    (memcached_query_daemon [] 4096 sample_instance
      (sample_world (List.replicate 4096 (RecvOutcome.data ['a'])))).trace.count
      (Event.WARNING "memcached: Message from memcached has been truncated.") = 0 := by
  decide!

/-! ## C7 -/

/-- C7: when the socket is open, the request sent and the socket readable, and
the first `recv` returns 0 bytes, `memcached_query_daemon` logs that the peer
has shut down the socket, closes the socket and returns -1; `memcached_read`
then returns -1 and dispatches no record. -/
theorem peer_closed_early {F : Type} (env : Env F) (st : memcached_t) (w : World) (fd : Int)
    (tr : List Event)
    (hopen : open_socket st w = (some fd, tr)) (hfd : 0 ≤ fd)
    (hsend : w.send = 7) (hpoll : 0 < w.poll)
    (hrecv : w.recvs = [] ∨ ∃ rest, w.recvs = RecvOutcome.data [] :: rest) :
    (memcached_query_daemon w.buf0 4096 st w).ret = -1 ∧
    (memcached_query_daemon w.buf0 4096 st w).trace
      = tr ++ [Event.send fd w.send, Event.poll fd w.poll, Event.recv fd 0 4096 0,
          Event.WARNING "memcached: Peer has unexpectedly shut down the socket. Buffer: \x60%s\x27",
          Event.shutdown fd, Event.close fd] ∧
    (memcached_read env st w).ret = -1 ∧
    (memcached_read env st w).dispatched = [] := by
  have hq := query_peer_closed w.buf0 4096 st w fd tr (by decide) hopen hfd hsend hpoll hrecv
  refine ⟨by rw [hq], by rw [hq], ?_, ?_⟩ <;>
  · unfold memcached_read
    rw [hq]
    rfl

/-- C7 (witness): the sample instance in a world whose first `recv` returns 0. -/
theorem peer_closed_early_witness :
    (memcached_query_daemon (sample_world []).buf0 4096 sample_instance (sample_world [])).ret
      = -1 ∧
    (memcached_query_daemon (sample_world []).buf0 4096 sample_instance (sample_world [])).trace
      = [Event.getaddrinfo "127.0.0.1" "11211", Event.socket 3, Event.connect 3 0,
          Event.freeaddrinfo] ++
        [Event.send 3 (sample_world []).send, Event.poll 3 (sample_world []).poll,
          Event.recv 3 0 4096 0,
          Event.WARNING "memcached: Peer has unexpectedly shut down the socket. Buffer: \x60%s\x27",
          Event.shutdown 3, Event.close 3] ∧
    (memcached_read sample_env sample_instance (sample_world [])).ret = -1 ∧
    (memcached_read sample_env sample_instance (sample_world [])).dispatched = [] :=
  peer_closed_early sample_env sample_instance (sample_world []) 3
    [Event.getaddrinfo "127.0.0.1" "11211", Event.socket 3, Event.connect 3 0,
      Event.freeaddrinfo]
    (by rfl) (by decide) (by decide) (by decide) (Or.inl rfl)

/-! ## C8 -/

/-- C8 (amended): a three-field line whose key is none of the keys
`memcached_read` handles and is not `cmd_` followed by at least one character
leaves every accumulator and the dispatched records as they are; when the
response with the line inserted between two of its lines is received whole
(it is shorter than the 4096-byte buffer), as the response without it is,
`memcached_read` returns 0 in both poll cycles and dispatches the same sequence
of records. -/
theorem unknown_key_line_is_ignored {F : Type} (env : Env F) (st : memcached_t)
    (w w2 : World) (fd fd2 : Int) (tr tr2 : List Event)
    (X Y L f0 key value : List Char)
    (hL : ∀ c ∈ L, c ≠ '\n' ∧ c ≠ '\r' ∧ c ≠ NUL)
    (hsplit : env.strsplit L 3 = [f0, key, value])
    (hkey : key ∉ ["rusage_user".toList, "rusage_system".toList, "threads".toList,
      "curr_items".toList, "bytes".toList, "limit_maxbytes".toList,
      "curr_connections".toList, "get_hits".toList, "get_misses".toList,
      "evictions".toList, "bytes_read".toList, "bytes_written".toList])
    (hcmd : ¬ (key.length > 4 ∧ key.take 4 = "cmd_".toList))
    (hopen : open_socket st w = (some fd, tr)) (hfd : 0 ≤ fd)
    (hsend : w.send = 7) (hpoll : 0 < w.poll)
    (hrecv : receives w.pre 4096 w.recvs (X ++ ['\r', '\n'] ++ Y))
    (hopen2 : open_socket st w2 = (some fd2, tr2)) (hfd2 : 0 ≤ fd2)
    (hsend2 : w2.send = 7) (hpoll2 : 0 < w2.poll)
    (hrecv2 : receives w2.pre 4096 w2.recvs (X ++ ['\r', '\n'] ++ L ++ ['\r', '\n'] ++ Y)) :
    (∀ s : ReadState F, process_line env st s L = s) ∧
    (memcached_read env st w).ret = 0 ∧
    (memcached_read env st w2).ret = 0 ∧
    (memcached_read env st w2).dispatched = (memcached_read env st w).dispatched := by
  obtain ⟨hnoop, hparse⟩ := parse_stats_insert_unknown env st X Y L f0 key value hL hsplit hkey hcmd
  obtain ⟨r1, d1⟩ := memcached_read_receives env st w fd tr _ hopen hfd hsend hpoll hrecv
  obtain ⟨r2, d2⟩ := memcached_read_receives env st w2 fd2 tr2 _ hopen2 hfd2 hsend2 hpoll2 hrecv2
  exact ⟨hnoop, r1, r2, by rw [d1, d2, hparse]⟩

/-- C8 (witness): the line `STAT pointer_size 64` between two other lines of a
response received in one read. -/
theorem unknown_key_line_is_ignored_witness :
    (memcached_read sample_env sample_instance
      (sample_world [RecvOutcome.data ("STAT threads 4".toList ++ ['\r', '\n']
        ++ "STAT pointer_size 64".toList ++ ['\r', '\n']
        ++ "STAT bytes 10\r\nEND\r\n".toList)])).dispatched
      = (memcached_read sample_env sample_instance
      (sample_world [RecvOutcome.data ("STAT threads 4".toList ++ ['\r', '\n']
        ++ "STAT bytes 10\r\nEND\r\n".toList)])).dispatched :=
  (unknown_key_line_is_ignored sample_env sample_instance
    (sample_world [RecvOutcome.data ("STAT threads 4".toList ++ ['\r', '\n']
        ++ "STAT bytes 10\r\nEND\r\n".toList)])
    (sample_world [RecvOutcome.data ("STAT threads 4".toList ++ ['\r', '\n']
        ++ "STAT pointer_size 64".toList ++ ['\r', '\n']
        ++ "STAT bytes 10\r\nEND\r\n".toList)])
    3 3
    [Event.getaddrinfo "127.0.0.1" "11211", Event.socket 3, Event.connect 3 0,
      Event.freeaddrinfo]
    [Event.getaddrinfo "127.0.0.1" "11211", Event.socket 3, Event.connect 3 0,
      Event.freeaddrinfo]
    "STAT threads 4".toList "STAT bytes 10\r\nEND\r\n".toList "STAT pointer_size 64".toList
    "STAT".toList "pointer_size".toList "64".toList
    (by decide) (by decide) (by decide) (by decide)
    (by rfl) (by decide) (by decide) (by decide)
    ⟨[_], [], rfl, rfl, by decide, by decide, by decide, by decide,
      fun k h0 h1 => absurd h1 (by simp only [List.length_singleton]; omega), Or.inr (Or.inl rfl)⟩
    (by rfl) (by decide) (by decide) (by decide)
    ⟨[_], [], rfl, rfl, by decide, by decide, by decide, by decide,
      fun k h0 h1 => absurd h1 (by simp only [List.length_singleton]; omega),
      Or.inr (Or.inl rfl)⟩).2.2.2

/-- C8 (counterexample): a response of 4085 bytes is received whole and gives
the record `memcached_items` 1234567; with one more line `STAT pointer_size 64`
between its lines it has 4107 bytes, the buffer holds its first 4095 bytes, and
`memcached_read` dispatches `memcached_items` 12. -/
theorem unknown_key_line_counterexample :
    (padded_response 183).length = 4085 ∧
    padded_response 184
      = "STAT pid 123\r\nSTAT uptime 9".toList ++ ['\r', '\n'] ++ "STAT pointer_size 64".toList
        ++ ['\r', '\n'] ++ (padded_response 183).drop 29 ∧
    padded_response 183
      = "STAT pid 123\r\nSTAT uptime 9".toList ++ ['\r', '\n'] ++ (padded_response 183).drop 29 ∧
    (memcached_read sample_env sample_instance
      (sample_world [RecvOutcome.data (padded_response 183)])).ret = 0 ∧
    (memcached_read sample_env sample_instance
      (sample_world [RecvOutcome.data (padded_response 183)])).dispatched
      = [submit_gauge sample_env "memcached_items" (some "current".toList)
          (Double.ofNat 1234567) sample_instance] ∧
    (memcached_read sample_env sample_instance
      (sample_world [RecvOutcome.data (padded_response 184)])).ret = 0 ∧
    (memcached_read sample_env sample_instance
      (sample_world [RecvOutcome.data (padded_response 184)])).dispatched
      = [submit_gauge sample_env "memcached_items" (some "current".toList)
          (Double.ofNat 12) sample_instance] := by
  decide!

/-! ## C9 -/

/-- C9 (the code at the failing input): one byte is read, 100 reads would
block, and the 102nd `recv` stores 4095 non-NUL bytes; the retry bound then
ends the loop before `buffer_fill` is updated, and `memcached_query_daemon`
returns 0 with a 4096-byte buffer that holds no NUL, so that the C string
starting at `buf` runs on into the memory behind it. -/
theorem success_without_terminator :
    (memcached_query_daemon [] 4096 sample_instance
      (sample_world (RecvOutcome.data ['x'] ::
        (List.replicate 100 RecvOutcome.eagain ++
          [RecvOutcome.data (List.replicate 4095 'y')])))).ret = 0 ∧
    (memcached_query_daemon [] 4096 sample_instance
      (sample_world (RecvOutcome.data ['x'] ::
        (List.replicate 100 RecvOutcome.eagain ++
          [RecvOutcome.data (List.replicate 4095 'y')])))).buffer
      = 'x' :: List.replicate 4095 'y' ∧
    NUL ∉ (memcached_query_daemon [] 4096 sample_instance
      (sample_world (RecvOutcome.data ['x'] ::
        (List.replicate 100 RecvOutcome.eagain ++
          [RecvOutcome.data (List.replicate 4095 'y')])))).buffer ∧
    (c_string ((memcached_query_daemon [] 4096 sample_instance
      (sample_world (RecvOutcome.data ['x'] ::
        (List.replicate 100 RecvOutcome.eagain ++
          [RecvOutcome.data (List.replicate 4095 'y')])))).buffer ++ ['z', NUL])).length
      = 4097 := by
  decide!

/-! ## C10 -/

/-- C10 (the code at the failing input): after a first read of 4 bytes
`buffer_fill` is 4, the test `buffer_fill > 3` passes, and the END check reads
`buffer[-1]`. -/
theorem end_check_reads_before_buffer :
    (end_check NUL ('S' :: 'T' :: 'A' :: 'T' :: List.replicate 4092 NUL) 4).2
      = [Event.peek (-1)] ∧
    Event.peek (-1) ∈ (memcached_query_daemon [] 4096 sample_instance
      (sample_world [RecvOutcome.data ['S', 'T', 'A', 'T']])).trace := by
  decide!

end Memcached
